import Mathlib

/-!
# Verification of `scripts/kicad_footprint_manager.py`

A shallow embedding of the footprint locator/mutator of the repository.
Text is modeled as `List Char`.  Every regular expression used by the script
is embedded as a deterministic matcher: for each of the script's patterns,
every quantified character class (`\s*`, `\s+`, `[^"]+`, `\d+`, `\d*`) is
followed either by a character it can never match (so greedy matching is
exactly maximal munch) or by nothing, and each optional item (`[+-]?`,
`\.?`, `(?:\(hide yes\)\s*\n\s*)?`) is such that, when taking it leads the
rest of the pattern to fail, not taking it fails as well; hence Python's
backtracking search never backtracks on these patterns and the matchers
below compute the same match, the same captured groups and the same end
position as `re` does.

Machine floating point numbers are modeled as exact rationals; Python's
`repr`/f-string formatting of a float is modeled by `fmtNum`, which mirrors
its fixed/exponent notation switch at `1e16` and `1e-4`.
-/

set_option maxRecDepth 20000
set_option linter.unusedVariables false

attribute [local semireducible] Rat.add Rat.mul Rat.inv Rat.sub Rat.ofScientific

namespace KicadFp

/-- Python's `\s` class (the six ASCII whitespace characters of `re`). -/
def isPySpace (c : Char) : Bool :=
  c = ' ' || c = '\t' || c = '\n' || c = '\r' || c = '\x0b' || c = '\x0c'

/-- Python's `\d` class restricted to ASCII, as `re` uses it on these patterns. -/
def isDigitCh (c : Char) : Bool :=
  '0' ≤ c && c ≤ '9'

/-- Consume an exact literal from the front of the input; `none` if absent. -/
def dropLit : List Char → List Char → Option (List Char)
  | [], cs => some cs
  | _ :: _, [] => none
  | l :: ls, c :: cs => if c = l then dropLit ls cs else none

/-! ## Matchers for the script's regular expressions -/

/-- `\s+` immediately followed by a non-space item: the run of whitespace,
which must be nonempty. -/
def matchWsPlus (cs : List Char) : Option (List Char × List Char) :=
  if (cs.takeWhile isPySpace).isEmpty then none
  else some (cs.takeWhile isPySpace, cs.dropWhile isPySpace)

/-- `\s*\n\s*` (followed by a non-space item or end of pattern): the whole
maximal whitespace run, which must contain a newline. -/
def matchWsNl (cs : List Char) : Option (List Char × List Char) :=
  if (cs.takeWhile isPySpace).contains '\n' then
    some (cs.takeWhile isPySpace, cs.dropWhile isPySpace)
  else none

/-- `\(\s*LIT` for a literal `LIT` starting with a non-space character:
open paren, maximal whitespace run, the literal.  Returns the matched text
and the rest. -/
def matchParenLit (lit : List Char) (cs : List Char) : Option (List Char × List Char) :=
  match cs with
  | '(' :: r1 =>
    match dropLit lit (r1.dropWhile isPySpace) with
    | some r2 => some ('(' :: (r1.takeWhile isPySpace ++ lit), r2)
    | none => none
  | _ => none

/-- `\(model\s+"[^"]+"`: the opening of a model sub-record.  This is the
pattern `modify_specific_model_by_index` enumerates with, and the common
prefix of all model-header patterns. -/
def matchCore (cs : List Char) : Option (List Char × List Char) :=
  match dropLit "(model".toList cs with
  | none => none
  | some r1 =>
    if (r1.takeWhile isPySpace).isEmpty then none else
    match r1.dropWhile isPySpace with
    | '"' :: r3 =>
      if (r3.takeWhile (fun c => !(c = '"'))).isEmpty then none else
      match r3.dropWhile (fun c => !(c = '"')) with
      | '"' :: r5 =>
        some ("(model".toList ++ r1.takeWhile isPySpace ++
              '"' :: (r3.takeWhile (fun c => !(c = '"')) ++ ['"']), r5)
      | _ => none
    | _ => none

/-- `\(model\s+"[^"]+"\s*\n\s*`: the model header including the trailing
whitespace run (which must contain a newline).  Greedily the trailing `\s*`
of the group takes the whole run, since what follows in every enclosing
pattern starts with a non-space character. -/
def matchHdrW (cs : List Char) : Option (List Char × List Char) :=
  match matchCore cs with
  | none => none
  | some (h, r) =>
    match matchWsNl r with
    | none => none
    | some (w, r2) => some (h ++ w, r2)

/-- The pattern of `add_hide_to_model`:
`(\(model\s+"[^"]+"\s*\n\s*)(\(\s*offset)`, returning groups 1 and 2 and
the rest of the input after the match. -/
def matchHideIns (cs : List Char) : Option (List Char × List Char × List Char) :=
  match matchHdrW cs with
  | none => none
  | some (g1, r) =>
    match matchParenLit "offset".toList r with
    | none => none
    | some (g2, rest) => some (g1, g2, rest)

/-- `\(\s*hide\s+yes\s*\)`: the hidden marker with flexible whitespace.
Returns the matched text and the rest. -/
def matchHideParen (cs : List Char) : Option (List Char × List Char) :=
  match cs with
  | '(' :: r1 =>
    match dropLit "hide".toList (r1.dropWhile isPySpace) with
    | none => none
    | some r2 =>
      match matchWsPlus r2 with
      | none => none
      | some (wB, r2b) =>
        match dropLit "yes".toList r2b with
        | none => none
        | some r3 =>
          match r3.dropWhile isPySpace with
          | ')' :: r4 =>
            some ('(' :: (r1.takeWhile isPySpace ++ "hide".toList ++ wB ++
                  "yes".toList ++ r3.takeWhile isPySpace ++ [')']), r4)
          | _ => none
  | _ => none

/-- The pattern of `remove_hide_from_model`:
`(\(model\s+"[^"]+"\s*\n\s*)(\t*\s*\(\s*hide\s+yes\s*\)\s*\n\s*)(\(\s*offset)`.
Group 1's trailing `\s*` greedily takes the whole whitespace run, so
group 2's leading `\t*\s*` is empty and group 2 starts at the marker's
open paren.  Returns groups 1 and 3 (group 2 is dropped by the
replacement) and the rest. -/
def matchHideDel (cs : List Char) : Option (List Char × List Char × List Char) :=
  match matchHdrW cs with
  | none => none
  | some (g1, r) =>
    match matchHideParen r with
    | none => none
    | some (_, r4) =>
      match matchWsNl r4 with
      | none => none
      | some (_, r5) =>
        match matchParenLit "offset".toList r5 with
        | none => none
        | some (g3, rest) => some (g1, g3, rest)

/-- `[+-]?\d+\.?\d*`: a numeric token.  The `\.?` is taken whenever a dot
is present; this is faithful because at every use site the token is
followed by `\s` or `\)`, neither of which a dot can satisfy, so Python's
backtracking could never succeed by skipping the dot either. -/
def numTokBody (sgn rest : List Char) : Option (List Char × List Char) :=
  if (rest.takeWhile isDigitCh).isEmpty then none else
  match rest.dropWhile isDigitCh with
  | '.' :: r3 =>
    some (sgn ++ rest.takeWhile isDigitCh ++ '.' :: r3.takeWhile isDigitCh,
          r3.dropWhile isDigitCh)
  | r2 => some (sgn ++ rest.takeWhile isDigitCh, r2)

def matchNumTok (cs : List Char) : Option (List Char × List Char) :=
  match cs with
  | [] => none
  | c :: r => if c = '+' || c = '-' then numTokBody [c] r else numTokBody [] (c :: r)

/-- The coordinate-triple pattern of `offset_model_coordinates` and
`set_model_position`:
`(\(model\s+"[^"]+"\s*\n\s*(?:\(hide yes\)\s*\n\s*)?\(offset\s*\n\s*\(xyz\s+)`
then three captured numeric tokens separated by `\s+`, then `(\s*\))`.
The optional hide group is taken exactly when the literal `(hide yes)`
followed by newline-whitespace is present; if taking it fails, not taking
it would require `\(offset` to match at `(hide`, which is impossible, so
determinization is faithful.  Returns group 1, the three numeric captures,
group 5 and the rest.  `optHide` handles the optional hide group. -/
def optHide (r : List Char) : List Char × List Char :=
  match dropLit "(hide yes)".toList r with
  | some ra =>
    match matchWsNl ra with
    | some (w, rb) => ("(hide yes)".toList ++ w, rb)
    | none => ([], r)
  | none => ([], r)

/-- See `optHide`'s doc comment: the coordinate-triple pattern of the
implicit offset and set-position operations. -/
def matchTripleImpl (cs : List Char) :
    Option (List Char × (List Char × List Char × List Char) × List Char × List Char) :=
  match matchHdrW cs with
  | none => none
  | some (g1a, r) =>
    match optHide r with
    | (hid, r2) =>
    match dropLit "(offset".toList r2 with
    | none => none
    | some r3 =>
      match matchWsNl r3 with
      | none => none
      | some (w2, r4) =>
        match dropLit "(xyz".toList r4 with
        | none => none
        | some r5 =>
          match matchWsPlus r5 with
          | none => none
          | some (w3, r6) =>
            match matchNumTok r6 with
            | none => none
            | some (n1, r7) =>
              match matchWsPlus r7 with
              | none => none
              | some (_, r8) =>
                match matchNumTok r8 with
                | none => none
                | some (n2, r9) =>
                  match matchWsPlus r9 with
                  | none => none
                  | some (_, r10) =>
                    match matchNumTok r10 with
                    | none => none
                    | some (n3, r11) =>
                      match r11.dropWhile isPySpace with
                      | ')' :: rest =>
                        some (g1a ++ hid ++ "(offset".toList ++ w2 ++ "(xyz".toList ++ w3,
                              (n1, n2, n3), r11.takeWhile isPySpace ++ [')'], rest)
                      | _ => none

/-- The coordinate-triple pattern used inside `modify_specific_model_by_index`
for the `offset` and `position` operations:
`(\(\s*offset\s*\n\s*\(\s*xyz\s+)` then three captured numeric tokens
separated by `\s+`, then `(\s*\)\s*\))`.  Returns group 1, the three
numeric captures, group 5 and the rest. -/
def matchTripleIdx (cs : List Char) :
    Option (List Char × (List Char × List Char × List Char) × List Char × List Char) :=
  match matchParenLit "offset".toList cs with
  | none => none
  | some (p1, r) =>
    match matchWsNl r with
    | none => none
    | some (w2, r2) =>
      match matchParenLit "xyz".toList r2 with
      | none => none
      | some (p2, r3) =>
        match matchWsPlus r3 with
        | none => none
        | some (w3, r4) =>
          match matchNumTok r4 with
          | none => none
          | some (n1, r5) =>
            match matchWsPlus r5 with
            | none => none
            | some (_, r6) =>
              match matchNumTok r6 with
              | none => none
              | some (n2, r7) =>
                match matchWsPlus r7 with
                | none => none
                | some (_, r8) =>
                  match matchNumTok r8 with
                  | none => none
                  | some (n3, r9) =>
                    match r9.dropWhile isPySpace with
                    | ')' :: r10 =>
                      match r10.dropWhile isPySpace with
                      | ')' :: rest =>
                        some (p1 ++ w2 ++ p2 ++ w3, (n1, n2, n3),
                              r9.takeWhile isPySpace ++ ')' ::
                                (r10.takeWhile isPySpace ++ [')']), rest)
                      | _ => none
                    | _ => none

/-- The pattern removed by the `show` operation of
`modify_specific_model_by_index`: `\(\s*hide\s+yes\s*\)\s*\n\s*`.  The
trailing `\s*\n\s*` greedily takes the whole whitespace run after the
marker, which must contain a newline. -/
def matchHideDelIdx (cs : List Char) : Option (List Char × List Char) :=
  match matchHideParen cs with
  | none => none
  | some (g, r) =>
    match matchWsNl r with
    | none => none
    | some (w, rest) => some (g ++ w, rest)

/-! ## Numbers: Python floats modeled as exact rationals -/

/-- Decimal digits of a natural number, most significant first, with enough
fuel for every value below `10 ^ 40`. -/
def natDigitsF : Nat → Nat → List Char
  | 0, _ => []
  | f + 1, n =>
    if n < 10 then [Char.ofNat (48 + n)]
    else natDigitsF f (n / 10) ++ [Char.ofNat (48 + n % 10)]

def natDigits (n : Nat) : List Char := natDigitsF 40 n

/-- Numeric value of a digit string. -/
def digitsVal (ds : List Char) : Nat :=
  ds.foldl (fun a c => a * 10 + (c.toNat - 48)) 0

/-- `float()` applied to a `[+-]?\d+\.?\d*` token, modeled exactly. -/
def parseNumAux (cs : List Char) : ℚ :=
  let ip := cs.takeWhile isDigitCh
  match cs.dropWhile isDigitCh with
  | '.' :: fr =>
    (digitsVal ip : ℚ) +
      (digitsVal (fr.takeWhile isDigitCh) : ℚ) / (10 : ℚ) ^ (fr.takeWhile isDigitCh).length
  | _ => (digitsVal ip : ℚ)

def parseNum (cs : List Char) : ℚ :=
  match cs with
  | '-' :: r => -(parseNumAux r)
  | '+' :: r => parseNumAux r
  | _ => parseNumAux cs

/-- Least `k ≤ 17` such that `q * 10 ^ k` is an integer, if any. -/
def decExp (q : ℚ) : Option Nat :=
  (List.range 18).find? (fun k => (q * (10 : ℚ) ^ k).den = 1)

def padZeros (k : Nat) (ds : List Char) : List Char :=
  List.replicate (k - ds.length) '0' ++ ds

def stripZerosR (ds : List Char) : List Char :=
  (ds.reverse.dropWhile (fun c => c = '0')).reverse

/-- Python's `f"{x}"` / `repr` formatting of a float, on the rational model:
fixed-point notation with a mandatory fractional digit for magnitudes in
`[1e-4, 1e16)` and for zero, exponent notation `d[.mmm]e±XX` otherwise.
Floats always have a finite decimal expansion; rationals that have none
within 17 fractional digits do not arise from the modeled arithmetic and
get a dummy rendering. -/
def fmtNum (q : ℚ) : List Char :=
  if q = 0 then "0.0".toList else
  let n : ℚ := |q|
  let sgn : List Char := if q < 0 then ['-'] else []
  match decExp n with
  | none => sgn ++ "0.0".toList
  | some k =>
    let N : Nat := (n * (10 : ℚ) ^ k).num.toNat
    if (1 : ℚ) / 10000 ≤ n ∧ n < (10 : ℚ) ^ 16 then
      sgn ++ natDigits (N / 10 ^ k) ++
        '.' :: (if k = 0 then ['0'] else padZeros k (natDigits (N % 10 ^ k)))
    else
      let D := natDigits N
      let e : Int := (D.length : Int) - 1 - (k : Int)
      let mant : List Char :=
        match stripZerosR D with
        | [] => ['0']
        | [d] => [d]
        | d :: rest => d :: '.' :: rest
      let eAbs := natDigits e.natAbs
      sgn ++ mant ++ 'e' :: (if e < 0 then '-' else '+') ::
        (if eAbs.length < 2 then '0' :: eAbs else eAbs)

/-! ## Substitution drivers -/

/-- One pass of `re.sub` with unlimited count: scan left to right, replace
each leftmost non-overlapping match and continue after it.  Every matcher
used here consumes at least one character on success, so fuel equal to the
input length suffices. -/
def subAllF (m : List Char → Option (List Char × List Char)) :
    Nat → List Char → List Char
  | 0, cs => cs
  | _ + 1, [] => []
  | f + 1, c :: cs =>
    match m (c :: cs) with
    | some (rep, rest) => rep ++ subAllF m f rest
    | none => c :: subAllF m f cs

def subAll (m : List Char → Option (List Char × List Char)) (cs : List Char) : List Char :=
  subAllF m cs.length cs

/-- `re.sub` with `count=1`: after the first replacement the remainder is
copied verbatim. -/
def subFirst (m : List Char → Option (List Char × List Char)) : List Char → List Char
  | [] => []
  | c :: cs =>
    match m (c :: cs) with
    | some (rep, rest) => rep ++ rest
    | none => c :: subFirst m cs

/-- `re.search`: the result of the matcher at the leftmost position where it
succeeds. -/
def searchFirst {α : Type} (m : List Char → Option α) : List Char → Option α
  | [] => m []
  | c :: cs =>
    match m (c :: cs) with
    | some a => some a
    | none => searchFirst m cs

/-- Offset (in characters) of the leftmost match of `matchCore`, the model
opening pattern searched for by the model enumerator. -/
def findModelStart : List Char → Option Nat
  | [] => none
  | c :: cs =>
    match matchCore (c :: cs) with
    | some _ => some 0
    | none => (findModelStart cs).map (· + 1)

/-- Python `str.contains` (the `in` operator) for substrings. -/
def containsSub (needle : List Char) : List Char → Bool
  | [] => needle.isEmpty
  | c :: cs => (dropLit needle (c :: cs)).isSome || containsSub needle cs

/-- Python `str.replace` (all occurrences, left to right). -/
def strReplace (old new : List Char) (cs : List Char) : List Char :=
  subAll (fun s => (dropLit old s).map (fun r => (new, r))) cs

/-! ## The mutation operations (`add_hide_to_model`, `remove_hide_from_model`,
`offset_model_coordinates`, `set_model_position`) -/

/-- The inserted hidden marker text `"(hide yes)\n\t\t\t"`. -/
def hideMarkIns : List Char := "(hide yes)\n\t\t\t".toList

/-- Replacement function of `add_hide_to_model`:
`match.group(1) + "(hide yes)\n\t\t\t" + match.group(2)`. -/
def hideInsRepl (cs : List Char) : Option (List Char × List Char) :=
  (matchHideIns cs).map (fun g => (g.1 ++ hideMarkIns ++ g.2.1, g.2.2))

/-- `add_hide_to_model`: global substitution over the footprint code.
(The function also prints a warning when a marker is already present;
that has no effect on the returned text.) -/
def add_hide_to_model (footprint_code : List Char) : List Char :=
  subAll hideInsRepl footprint_code

/-- Replacement function of `remove_hide_from_model`:
`match.group(1) + match.group(3)`. -/
def hideDelRepl (cs : List Char) : Option (List Char × List Char) :=
  (matchHideDel cs).map (fun g => (g.1 ++ g.2.1, g.2.2))

/-- `remove_hide_from_model`: global substitution over the footprint code. -/
def remove_hide_from_model (footprint_code : List Char) : List Char :=
  subAll hideDelRepl footprint_code

/-- Replacement function of `offset_model_coordinates`:
`f"{group1}{x + dx} {y + dy} {z + dz}{group5}"`. -/
def offImplRepl (dx dy dz : ℚ) (cs : List Char) : Option (List Char × List Char) :=
  (matchTripleImpl cs).map (fun g =>
    (g.1 ++ fmtNum (parseNum g.2.1.1 + dx) ++
       ' ' :: (fmtNum (parseNum g.2.1.2.1 + dy) ++
       ' ' :: (fmtNum (parseNum g.2.1.2.2 + dz) ++ g.2.2.1)), g.2.2.2))

/-- `offset_model_coordinates`. -/
def offset_model_coordinates (footprint_code : List Char) (dx dy dz : ℚ) : List Char :=
  subAll (offImplRepl dx dy dz) footprint_code

/-- Replacement function of `set_model_position`:
`f"{group1}{x} {y} {z}{group5}"`. -/
def posImplRepl (x y z : ℚ) (cs : List Char) : Option (List Char × List Char) :=
  (matchTripleImpl cs).map (fun g =>
    (g.1 ++ fmtNum x ++ ' ' :: (fmtNum y ++ ' ' :: (fmtNum z ++ g.2.2.1)), g.2.2.2))

/-- `set_model_position`. -/
def set_model_position (footprint_code : List Char) (x y z : ℚ) : List Char :=
  subAll (posImplRepl x y z) footprint_code

/-! ## Parenthesis scanning and model enumeration -/

/-- The paren-counting scan used both by `parse_kicad_pcb` and by
`modify_specific_model_by_index`: starting with the given depth, increment
at `(`, decrement at `)`, and stop just after the `)` that brings the depth
to zero.  Returns the number of characters consumed (`n` is the
accumulator), or `none` when the text ends first. -/
def scanBal : List Char → Int → Nat → Option Nat
  | [], _, _ => none
  | c :: cs, depth, n =>
    if c = ')' ∧ depth - 1 = 0 then some (n + 1)
    else scanBal cs
      (if c = '(' then depth + 1 else if c = ')' then depth - 1 else depth) (n + 1)

/-- The model enumeration loop of `modify_specific_model_by_index`:
repeatedly search for the model opening pattern, paren-scan its extent and
continue after it.  An entry is `(start, end, content)` in absolute
offsets.  A model opening whose parens never close makes the Python loop
reuse a stale end offset (a `NameError` or an infinite loop); that case is
modeled as `none`.  Fuel equal to the input length plus one suffices since
every round consumes at least one character. -/
def enumMF : Nat → List Char → Option (List (Nat × Nat × List Char))
  | 0, _ => none
  | f + 1, cs =>
    match findModelStart cs with
    | none => some []
    | some p =>
      match scanBal (cs.drop p) 0 0 with
      | none => none
      | some len =>
        match enumMF f (cs.drop (p + len)) with
        | none => none
        | some ms =>
          some ((p, p + len, (cs.drop p).take len) ::
                ms.map (fun t => (p + len + t.1, p + len + t.2.1, t.2.2)))

def enumModels (cs : List Char) : Option (List (Nat × Nat × List Char)) :=
  enumMF (cs.length + 1) cs

/-- The operation selector of `modify_specific_model_by_index`, with the
numeric arguments supplied by the CLI (`offset_values` / `position_values`;
their Python default `(0, 0, 0)` never applies, since the CLI always passes
them). -/
inductive ModelOp : Type
  | hideOp : ModelOp
  | showOp : ModelOp
  | offsetOp (dx dy dz : ℚ) : ModelOp
  | positionOp (x y z : ℚ) : ModelOp

/-- Replacement function for the indexed `hide` operation:
`re.sub(r'(\(model\s+"[^"]+"\s*\n\s*)', r"\1(hide yes)\n\t\t\t", ·, count=1)`. -/
def hideIdxRepl (cs : List Char) : Option (List Char × List Char) :=
  (matchHdrW cs).map (fun g => (g.1 ++ hideMarkIns, g.2))

/-- Replacement function for the indexed `show` operation (count=1,
replacement empty). -/
def showIdxRepl (cs : List Char) : Option (List Char × List Char) :=
  (matchHideDelIdx cs).map (fun g => ([], g.2))

/-- Replacement function for the indexed `offset` operation. -/
def offIdxRepl (dx dy dz : ℚ) (cs : List Char) : Option (List Char × List Char) :=
  (matchTripleIdx cs).map (fun g =>
    (g.1 ++ fmtNum (parseNum g.2.1.1 + dx) ++
       ' ' :: (fmtNum (parseNum g.2.1.2.1 + dy) ++
       ' ' :: (fmtNum (parseNum g.2.1.2.2 + dz) ++ g.2.2.1)), g.2.2.2))

/-- Replacement function for the indexed `position` operation. -/
def posIdxRepl (x y z : ℚ) (cs : List Char) : Option (List Char × List Char) :=
  (matchTripleIdx cs).map (fun g =>
    (g.1 ++ fmtNum x ++ ' ' :: (fmtNum y ++ ' ' :: (fmtNum z ++ g.2.2.1)), g.2.2.2))

/-- `modify_specific_model_by_index`.  The index is a Python `int` (it can
be negative).  `none` models the crash/divergence of the enumeration loop
on a model whose parens never close; otherwise the returned text is the
(possibly unchanged) footprint code. -/
def modify_specific_model_by_index (footprint_code : List Char) (model_index : Int)
    (operation : ModelOp) : Option (List Char) :=
  match enumModels footprint_code with
  | none => none
  | some models =>
    if models.isEmpty then some footprint_code
    else if model_index < 0 ∨ (models.length : Int) ≤ model_index then some footprint_code
    else
      let t := models.getD model_index.toNat (0, 0, [])
      let model_content := t.2.2
      match operation with
      | ModelOp.hideOp =>
        if containsSub "(hide yes)".toList model_content then some footprint_code
        else
          some (footprint_code.take t.1 ++ subFirst hideIdxRepl model_content ++
                footprint_code.drop t.2.1)
      | ModelOp.showOp =>
        if containsSub "(hide yes)".toList model_content then
          let upd := strReplace "\n\t\t\t\n".toList "\n\t\t\t".toList
                      (subFirst showIdxRepl model_content)
          some (footprint_code.take t.1 ++ upd ++ footprint_code.drop t.2.1)
        else some footprint_code
      | ModelOp.offsetOp dx dy dz =>
        let upd := subAll (offIdxRepl dx dy dz) model_content
        if upd = model_content then some footprint_code
        else some (footprint_code.take t.1 ++ upd ++ footprint_code.drop t.2.1)
      | ModelOp.positionOp x y z =>
        let upd := subAll (posIdxRepl x y z) model_content
        if upd = model_content then some footprint_code
        else some (footprint_code.take t.1 ++ upd ++ footprint_code.drop t.2.1)

/-! ## `parse_kicad_pcb`, `replace_footprint_in_file` and the CLI's
indexed-mutation branches -/

/-- Start offsets of the non-overlapping occurrences of a literal, scanned
left to right (`re.finditer` on a pattern with no metacharacters).  Fuel
equal to the input length suffices. -/
def findLitStartsF (lit : List Char) : Nat → List Char → List Nat
  | 0, _ => []
  | _ + 1, [] => []
  | f + 1, c :: cs =>
    match dropLit lit (c :: cs) with
    | some r => 0 :: (findLitStartsF lit f r).map (· + lit.length)
    | none => (findLitStartsF lit f cs).map (· + 1)

def findLitStarts (lit cs : List Char) : List Nat :=
  findLitStartsF lit cs.length cs

/-- `\(property "Reference"\s+"([^"]+)"`: the reference-designator property;
returns the captured group. -/
def refPat (cs : List Char) : Option (List Char) :=
  match dropLit "(property \"Reference\"".toList cs with
  | none => none
  | some r1 =>
    match matchWsPlus r1 with
    | none => none
    | some (_, r2) =>
      match r2 with
      | '"' :: r3 =>
        if (r3.takeWhile (fun c => !(c = '"'))).isEmpty then none else
        match r3.dropWhile (fun c => !(c = '"')) with
        | '"' :: _ => some (r3.takeWhile (fun c => !(c = '"')))
        | _ => none
      | _ => none

/-- Insertion into the footprint dictionary: overwrite in place on a
duplicate key, append otherwise (Python `dict` assignment). -/
def insertFp (k : List Char) (v : List Char × Nat × Nat) :
    List (List Char × List Char × Nat × Nat) → List (List Char × List Char × Nat × Nat)
  | [] => [(k, v)]
  | (k2, v2) :: tl => if k2 = k then (k, v) :: tl else (k2, v2) :: insertFp k v tl

/-- Dictionary lookup. -/
def lookupFp (fps : List (List Char × List Char × Nat × Nat)) (ref : List Char) :
    Option (List Char × Nat × Nat) :=
  match fps with
  | [] => none
  | (k, v) :: tl => if k = ref then some v else lookupFp tl ref

/-- `parse_kicad_pcb` (on the already-read content): for every occurrence of
`(footprint`, paren-scan its extent; if the span contains a quoted
`Reference` property, index the span under that reference
(`full_data`, `start_pos`, `end_pos`).  Spans without the property and
openings whose parens never close are silently skipped. -/
def parse_kicad_pcb (content : List Char) : List (List Char × List Char × Nat × Nat) :=
  (findLitStarts "(footprint".toList content).foldl
    (fun fps p =>
      match scanBal (content.drop p) 0 0 with
      | none => fps
      | some len =>
        let raw := (content.drop p).take len
        match searchFirst refPat raw with
        | some ref => insertFp ref (raw, p, p + len) fps
        | none => fps)
    []

/-- `replace_footprint_in_file` (on the content, with the write modeled by
returning the new content): `none` when the reference is not found (no
write), otherwise the spliced document, which is then written. -/
def replace_footprint_in_file (content ref new_footprint_code : List Char) :
    Option (List Char) :=
  match lookupFp (parse_kicad_pcb content) ref with
  | none => none
  | some (_, s, e) => some (content.take s ++ new_footprint_code ++ content.drop e)

/-- The CLI branch for an indexed mutation (`--hide`, `--show`, `--offset`
or `--position`, together with `--idx N`): parse, exit without writing when the reference is missing,
otherwise run `modify_specific_model_by_index` on the extracted footprint
and unconditionally call `replace_footprint_in_file`.  The boolean records
whether a file write was performed.  All four branches of `__main__` have
this exact shape, differing only in the operation passed. -/
def runIndexedCli (content ref : List Char) (idx : Int) (op : ModelOp) :
    Option (List Char × Bool) :=
  match lookupFp (parse_kicad_pcb content) ref with
  | none => some (content, false)
  | some (full_data, _, _) =>
    match modify_specific_model_by_index full_data idx op with
    | none => none
    | some modified =>
      match replace_footprint_in_file content ref modified with
      | none => some (content, false)
      | some newContent => some (newContent, true)

/-! ## Families of structured inputs

The Mutation Engine's subjects are, per the spec, text spans starting with
a model field header and containing a nested coordinate field.  The
following constructors build such spans in the layout the script's patterns
expect; the path, whitespace runs and numeric tokens are arbitrary
parameters subject to side conditions stated in the theorems. -/

/-- A model header `(model "PATH"` followed by a whitespace run. -/
def hdrOf (path w1 : List Char) : List Char :=
  "(model".toList ++ ' ' :: '"' :: (path ++ '"' :: w1)

/-- A hidden-marker occurrence `(hide yes)` followed by a whitespace run. -/
def mkMarker (wh : List Char) : List Char :=
  "(hide yes)".toList ++ wh

/-- The part of a model block after `(offset`: whitespace, `(xyz `, three
numeric tokens separated by single spaces, and the three closing parens
with interleaved whitespace. -/
def modelTail (w2 a b c w4 w5 w6 : List Char) : List Char :=
  w2 ++ "(xyz".toList ++ ' ' ::
    (a ++ ' ' :: (b ++ ' ' :: (c ++ (w4 ++ ')' :: (w5 ++ ')' :: (w6 ++ [')']))))))

/-- A complete model sub-record.  `hid` is `[]` for an unmarked model or
`mkMarker wh` for a marked one. -/
def mkModel (path w1 hid w2 a b c w4 w5 w6 : List Char) : List Char :=
  hdrOf path w1 ++ hid ++ "(offset".toList ++ modelTail w2 a b c w4 w5 w6

/-- No match of `m` starts at any offset below `n`. -/
def noMatchBelow {α : Type} (m : List Char → Option α) (cs : List Char) (n : Nat) : Prop :=
  ∀ k < n, m (cs.drop k) = none

/-- The numeric token `a` is matched in its entirety by `matchNumTok`. -/
def numTokAll (a : List Char) : Prop := matchNumTok a = some (a, [])

instance noMatchBelowDec {α : Type} [DecidableEq α] (m : List Char → Option α)
    (cs : List Char) (n : Nat) : Decidable (noMatchBelow m cs n) :=
  inferInstanceAs (Decidable (∀ k < n, m (cs.drop k) = none))

instance numTokAllDec (a : List Char) : Decidable (numTokAll a) :=
  inferInstanceAs (Decidable (matchNumTok a = some (a, [])))

/-- Paren-count of a text, as a sum of character deltas. -/
def balInt (cs : List Char) : Int :=
  (cs.map (fun c => if c = '(' then (1 : Int) else if c = ')' then -1 else 0)).sum

/-! ## Concrete inputs for the counterexamples -/

/-- A footprint with two models, used by several counterexamples. -/
def rc2 : List Char :=
  ("(footprint \"lib\"\n\t(property \"Reference\" \"U1\")\n\t" ++
   "(model \"a.step\"\n\t\t(offset\n\t\t\t(xyz 1.5 -2.0 0.0)\n\t\t)\n\t)\n\t" ++
   "(model \"b.step\"\n\t\t(offset\n\t\t\t(xyz 0 0 0)\n\t\t)\n\t)\n)").toList

/-- A document containing `rc2` as its only footprint. -/
def doc1 : List Char := ("(kicad_pcb ".toList ++ rc2) ++ [')']

/-- A document with one `(footprint` marker nested inside another record's
span: both get indexed and their spans overlap. -/
def nestedDoc : List Char :=
  "X(footprint (property \"Reference\" \"A\") (footprint (property \"Reference\" \"B\")))Y".toList

/-- The texts of the enumerated models of a footprint. -/
def modelTexts (cs : List Char) : Option (List (List Char)) :=
  (enumModels cs).map (List.map (fun t => t.2.2))

/-- A document with two disjoint records `A` and `B`. -/
def dupDoc2 : List Char :=
  ("(footprint (property \"Reference\" \"A\") (x 1))mid" ++
   "(footprint (property \"Reference\" \"B\") (y 2))").toList

/-- A single-model record whose offset block is not adjacent to the model
header: the implicit and the index-0 hide paths disagree on it. -/
def r0 : List Char :=
  "(model \"p\"\n(at 1)\n(offset\n(xyz 1 1 1)))".toList

/-- A subject whose coordinates are integer-formatted: a zero offset
rewrites them. -/
def subjInt : List Char :=
  "(model \"m\"\n\t(offset\n\t\t(xyz 1 2 3)\n\t)\n)".toList

/-- A subject with canonically formatted coordinates. -/
def subjCanon : List Char :=
  "(model \"m\"\n\t(offset\n\t\t(xyz 1.5 -2.0 0.0)\n\t)\n)".toList

/-! ## Basic lemmas -/

theorem dropLit_length {l cs r : List Char} (h : dropLit l cs = some r) :
    r.length + l.length = cs.length := by
  induction l generalizing cs with
  | nil => simp [dropLit] at h; simp [h]
  | cons a l ih =>
    cases cs with
    | nil => simp [dropLit] at h
    | cons c cs =>
      simp only [dropLit] at h
      split at h
      · have := ih h
        simp [List.length_cons]; omega
      · exact absurd h (by simp)

theorem dropLit_eq {l cs r : List Char} (h : dropLit l cs = some r) :
    cs = l ++ r := by
  induction l generalizing cs with
  | nil => simp [dropLit] at h; simp [h]
  | cons a l ih =>
    cases cs with
    | nil => simp [dropLit] at h
    | cons c cs =>
      simp only [dropLit] at h
      split at h
      next heq => simp [heq, ih h]
      · exact absurd h (by simp)

theorem dropLit_append (l r : List Char) : dropLit l (l ++ r) = some r := by
  induction l with
  | nil => simp [dropLit]
  | cons a l ih => simp [dropLit, ih]

theorem length_dropWhile_le (p : Char → Bool) (cs : List Char) :
    (cs.dropWhile p).length ≤ cs.length := by
  induction cs with
  | nil => simp
  | cons c cs ih =>
    by_cases h : p c
    · simp [List.dropWhile, h]; omega
    · simp [List.dropWhile, h]

theorem takeWhile_app_cons {p : Char → Bool} {l1 : List Char} (x : Char) (l2 : List Char)
    (h : ∀ c ∈ l1, p c = true) (hx : p x = false) :
    ((l1 ++ x :: l2).takeWhile p) = l1 := by
  rw [List.takeWhile_append_of_pos h, List.takeWhile_cons_of_neg (by simp [hx]), List.append_nil]

theorem dropWhile_app_cons {p : Char → Bool} {l1 : List Char} (x : Char) (l2 : List Char)
    (h : ∀ c ∈ l1, p c = true) (hx : p x = false) :
    ((l1 ++ x :: l2).dropWhile p) = x :: l2 := by
  rw [List.dropWhile_append_of_pos h, List.dropWhile_cons_of_neg (by simp [hx])]

theorem takeWhile_dropWhile_length (p : Char → Bool) (cs : List Char) :
    (cs.takeWhile p).length + (cs.dropWhile p).length = cs.length := by
  conv_rhs => rw [← List.takeWhile_append_dropWhile p cs]
  rw [List.length_append]

/-! ## Each matcher consumes at least one character -/

theorem matchWsPlus_len {cs w r : List Char} (h : matchWsPlus cs = some (w, r)) :
    w ≠ [] ∧ w = cs.takeWhile isPySpace ∧ r = cs.dropWhile isPySpace := by
  unfold matchWsPlus at h
  split at h
  · exact absurd h (by simp)
  next hne =>
    rw [Option.some.injEq, Prod.mk.injEq] at h
    obtain ⟨h1, h2⟩ := h
    refine ⟨?_, h1.symm, h2.symm⟩
    subst h1
    simpa [List.isEmpty_iff] using hne

theorem matchWsPlus_le {cs w r : List Char} (h : matchWsPlus cs = some (w, r)) :
    r.length ≤ cs.length := by
  obtain ⟨-, -, h2⟩ := matchWsPlus_len h
  subst h2
  exact length_dropWhile_le _ _

theorem matchWsNl_len {cs w r : List Char} (h : matchWsNl cs = some (w, r)) :
    w.contains '\n' ∧ w = cs.takeWhile isPySpace ∧ r = cs.dropWhile isPySpace := by
  unfold matchWsNl at h
  split at h
  next hc =>
    rw [Option.some.injEq, Prod.mk.injEq] at h
    obtain ⟨h1, h2⟩ := h
    exact ⟨h1 ▸ hc, h1.symm, h2.symm⟩
  · exact absurd h (by simp)

theorem matchWsNl_le {cs w r : List Char} (h : matchWsNl cs = some (w, r)) :
    r.length ≤ cs.length := by
  obtain ⟨-, -, h2⟩ := matchWsNl_len h
  subst h2
  exact length_dropWhile_le _ _

theorem matchParenLit_lt {lit cs g r : List Char} (h : matchParenLit lit cs = some (g, r)) :
    r.length < cs.length := by
  unfold matchParenLit at h
  split at h
  next r1 =>
    split at h
    next r2 hdrop =>
      rw [Option.some.injEq, Prod.mk.injEq] at h
      obtain ⟨-, h2⟩ := h
      subst h2
      have h1 := dropLit_length hdrop
      have h2 := length_dropWhile_le isPySpace r1
      simp only [List.length_cons]
      omega
    · exact absurd h (by simp)
  · exact absurd h (by simp)

theorem matchCore_lt {cs g r : List Char} (h : matchCore cs = some (g, r)) :
    r.length < cs.length := by
  unfold matchCore at h
  split at h
  · exact absurd h (by simp)
  next r1 hdrop =>
    split at h
    · exact absurd h (by simp)
    split at h
    next r3 heq3 =>
      split at h
      · exact absurd h (by simp)
      split at h
      next r5 heq5 =>
        rw [Option.some.injEq, Prod.mk.injEq] at h
        obtain ⟨-, h2⟩ := h
        subst h2
        have h1 := dropLit_length hdrop
        have h2 := length_dropWhile_le isPySpace r1
        have h3 : r3.length < r1.length := by
          have hx := congrArg List.length heq3
          simp only [List.length_cons] at hx
          omega
        have h4 := length_dropWhile_le (fun c => !(c = '"')) r3
        have h5 : r5.length < r3.length := by
          have hx := congrArg List.length heq5
          simp only [List.length_cons] at hx
          omega
        have h6 : ("(model".toList : List Char).length = 6 := by decide
        omega
      · exact absurd h (by simp)
    · exact absurd h (by simp)

theorem matchHdrW_lt {cs g r : List Char} (h : matchHdrW cs = some (g, r)) :
    r.length < cs.length := by
  unfold matchHdrW at h
  split at h
  · exact absurd h (by simp)
  next g0 r0 hcore =>
    split at h
    · exact absurd h (by simp)
    next w r2 hnl =>
      rw [Option.some.injEq, Prod.mk.injEq] at h
      obtain ⟨-, h2⟩ := h
      subst h2
      exact lt_of_le_of_lt (matchWsNl_le hnl) (matchCore_lt hcore)

theorem matchHideParen_lt {cs g r : List Char} (h : matchHideParen cs = some (g, r)) :
    r.length < cs.length := by
  unfold matchHideParen at h
  split at h
  next r1 =>
    split at h
    · exact absurd h (by simp)
    next r2 hdrop =>
      split at h
      · exact absurd h (by simp)
      next wB r2b hws =>
        split at h
        · exact absurd h (by simp)
        next r3 hdrop3 =>
          split at h
          next r4 heq4 =>
            rw [Option.some.injEq, Prod.mk.injEq] at h
            obtain ⟨-, h2⟩ := h
            subst h2
            have b1 := dropLit_length hdrop
            have b2 := length_dropWhile_le isPySpace r1
            have b3 := matchWsPlus_le hws
            have b4 := dropLit_length hdrop3
            have b5 := length_dropWhile_le isPySpace r3
            have b6 : r4.length < (r3.dropWhile isPySpace).length := by
              have hx := congrArg List.length heq4
              simp only [List.length_cons] at hx
              omega
            have e1 : ("hide".toList : List Char).length = 4 := by decide
            have e2 : ("yes".toList : List Char).length = 3 := by decide
            simp only [List.length_cons]
            omega
          · exact absurd h (by simp)
  · exact absurd h (by simp)

theorem numTokBody_le {sgn rest t r : List Char} (h : numTokBody sgn rest = some (t, r)) :
    r.length < rest.length := by
  unfold numTokBody at h
  split at h
  · exact absurd h (by simp)
  next hne =>
    have hd1 : 1 ≤ (rest.takeWhile isDigitCh).length := by
      cases heq : rest.takeWhile isDigitCh with
      | nil => rw [heq] at hne; simp at hne
      | cons a l => simp [heq]
    have htd := takeWhile_dropWhile_length isDigitCh rest
    split at h
    next r3 heq3 =>
      rw [Option.some.injEq, Prod.mk.injEq] at h
      obtain ⟨-, h2⟩ := h
      subst h2
      have b : r3.length < (rest.dropWhile isDigitCh).length := by
        have hx := congrArg List.length heq3
        simp only [List.length_cons] at hx
        omega
      have b2 := length_dropWhile_le isDigitCh r3
      omega
    next r2 heq2 =>
      rw [Option.some.injEq, Prod.mk.injEq] at h
      obtain ⟨-, h2⟩ := h
      subst h2
      omega

theorem matchNumTok_lt {cs t r : List Char} (h : matchNumTok cs = some (t, r)) :
    r.length < cs.length := by
  unfold matchNumTok at h
  split at h
  · exact absurd h (by simp)
  next c cr =>
    split at h
    · have := numTokBody_le h
      simp only [List.length_cons]
      omega
    · exact numTokBody_le h

theorem matchHideIns_lt {cs : List Char} {g : List Char × List Char × List Char}
    (h : matchHideIns cs = some g) : g.2.2.length < cs.length := by
  unfold matchHideIns at h
  split at h
  · exact absurd h (by simp)
  next g1 r hhdr =>
    split at h
    · exact absurd h (by simp)
    next g2 rest hpl =>
      rw [Option.some.injEq] at h
      subst h
      exact lt_trans (matchParenLit_lt hpl) (matchHdrW_lt hhdr)

theorem matchHideDel_lt {cs : List Char} {g : List Char × List Char × List Char}
    (h : matchHideDel cs = some g) : g.2.2.length < cs.length := by
  unfold matchHideDel at h
  split at h
  · exact absurd h (by simp)
  next g1 r hhdr =>
    split at h
    · exact absurd h (by simp)
    next gm r4 hhp =>
      split at h
      · exact absurd h (by simp)
      next w r5 hnl =>
        split at h
        · exact absurd h (by simp)
        next g3 rest hpl =>
          rw [Option.some.injEq] at h
          subst h
          exact lt_trans (lt_of_le_of_lt (le_of_lt (matchParenLit_lt hpl))
            (lt_of_le_of_lt (matchWsNl_le hnl) (matchHideParen_lt hhp))) (matchHdrW_lt hhdr)

theorem matchTripleImpl_lt {cs : List Char}
    {g : List Char × (List Char × List Char × List Char) × List Char × List Char}
    (h : matchTripleImpl cs = some g) : g.2.2.2.length < cs.length := by
  unfold matchTripleImpl at h
  split at h
  · exact absurd h (by simp)
  next g1a r hhdr =>
    have hopt : (optHide r).2.length ≤ r.length := by
      unfold optHide
      split
      next ra hra =>
        split
        next w rb hnl =>
          have h1 := dropLit_length hra
          have h2 := matchWsNl_le hnl
          simp only
          omega
        · simp
      · simp
    split at h
    next hid r2 heq =>
      rw [heq] at hopt
      simp only at hopt
      split at h
      · exact absurd h (by simp)
      next r3 hd3 =>
        split at h
        · exact absurd h (by simp)
        next w2 r4 hnl2 =>
          split at h
          · exact absurd h (by simp)
          next r5 hd5 =>
            split at h
            · exact absurd h (by simp)
            next w3 r6 hwp =>
              split at h
              · exact absurd h (by simp)
              next n1 r7 hn1 =>
                split at h
                · exact absurd h (by simp)
                next s1 r8 hs1 =>
                  split at h
                  · exact absurd h (by simp)
                  next n2 r9 hn2 =>
                    split at h
                    · exact absurd h (by simp)
                    next s2 r10 hs2 =>
                      split at h
                      · exact absurd h (by simp)
                      next n3 r11 hn3 =>
                        split at h
                        next rest heq2 =>
                          rw [Option.some.injEq] at h
                          subst h
                          have b1 := dropLit_length hd3
                          have b2 := matchWsNl_le hnl2
                          have b3 := dropLit_length hd5
                          have b4 := matchWsPlus_le hwp
                          have b5 := matchNumTok_lt hn1
                          have b6 := matchWsPlus_le hs1
                          have b7 := matchNumTok_lt hn2
                          have b8 := matchWsPlus_le hs2
                          have b9 := matchNumTok_lt hn3
                          have b10 := length_dropWhile_le isPySpace r11
                          have b11 : rest.length < (r11.dropWhile isPySpace).length := by
                            have hx := congrArg List.length heq2
                            simp only [List.length_cons] at hx
                            omega
                          have hc := matchHdrW_lt hhdr
                          simp only
                          omega
                        · exact absurd h (by simp)

theorem matchTripleIdx_lt {cs : List Char}
    {g : List Char × (List Char × List Char × List Char) × List Char × List Char}
    (h : matchTripleIdx cs = some g) : g.2.2.2.length < cs.length := by
  unfold matchTripleIdx at h
  split at h
  · exact absurd h (by simp)
  next p1 r hp1 =>
    split at h
    · exact absurd h (by simp)
    next w2 r2 hnl =>
      split at h
      · exact absurd h (by simp)
      next p2 r3 hp2 =>
        split at h
        · exact absurd h (by simp)
        next w3 r4 hwp =>
          split at h
          · exact absurd h (by simp)
          next n1 r5 hn1 =>
            split at h
            · exact absurd h (by simp)
            next s1 r6 hs1 =>
              split at h
              · exact absurd h (by simp)
              next n2 r7 hn2 =>
                split at h
                · exact absurd h (by simp)
                next s2 r8 hs2 =>
                  split at h
                  · exact absurd h (by simp)
                  next n3 r9 hn3 =>
                    split at h
                    next r10 heq10 =>
                      split at h
                      next rest heq11 =>
                        rw [Option.some.injEq] at h
                        subst h
                        have b0 := matchParenLit_lt hp1
                        have b1 := matchWsNl_le hnl
                        have b2 := matchParenLit_lt hp2
                        have b3 := matchWsPlus_le hwp
                        have b4 := matchNumTok_lt hn1
                        have b5 := matchWsPlus_le hs1
                        have b6 := matchNumTok_lt hn2
                        have b7 := matchWsPlus_le hs2
                        have b8 := matchNumTok_lt hn3
                        have b9 := length_dropWhile_le isPySpace r9
                        have b10 : r10.length < (r9.dropWhile isPySpace).length := by
                          have hx := congrArg List.length heq10
                          simp only [List.length_cons] at hx
                          omega
                        have b11 := length_dropWhile_le isPySpace r10
                        have b12 : rest.length < (r10.dropWhile isPySpace).length := by
                          have hx := congrArg List.length heq11
                          simp only [List.length_cons] at hx
                          omega
                        simp only
                        omega
                      · exact absurd h (by simp)
                    · exact absurd h (by simp)

theorem matchHideDelIdx_lt {cs : List Char} {g : List Char × List Char}
    (h : matchHideDelIdx cs = some g) : g.2.length < cs.length := by
  unfold matchHideDelIdx at h
  split at h
  · exact absurd h (by simp)
  next g0 r hhp =>
    split at h
    · exact absurd h (by simp)
    next w rest hnl =>
      rw [Option.some.injEq] at h
      subst h
      exact lt_of_le_of_lt (matchWsNl_le hnl) (matchHideParen_lt hhp)

/-! ## Laws of the substitution drivers -/

theorem subAllF_fuel {m : List Char → Option (List Char × List Char)}
    (Hdec : ∀ cs p, m cs = some p → p.2.length < cs.length) :
    ∀ f g cs, cs.length ≤ f → cs.length ≤ g → subAllF m f cs = subAllF m g cs := by
  intro f
  induction f with
  | zero =>
    intro g cs hf _
    have : cs = [] := List.eq_nil_of_length_eq_zero (Nat.le_zero.mp hf)
    subst this
    cases g <;> simp [subAllF]
  | succ f ih =>
    intro g cs hf hg
    cases cs with
    | nil => cases g <;> simp [subAllF]
    | cons c tl =>
      cases g with
      | zero => simp at hg
      | succ g2 =>
        simp only [subAllF]
        cases hm : m (c :: tl) with
        | none =>
          simp only [List.length_cons] at hf hg
          show c :: subAllF m f tl = c :: subAllF m g2 tl
          rw [ih g2 tl (by omega) (by omega)]
        | some p =>
          obtain ⟨rep, rest⟩ := p
          have hlt := Hdec _ _ hm
          simp only [List.length_cons] at hf hg hlt
          show rep ++ subAllF m f rest = rep ++ subAllF m g2 rest
          rw [ih g2 rest (by omega) (by omega)]

theorem subAll_match_head {m : List Char → Option (List Char × List Char)}
    (Hdec : ∀ cs p, m cs = some p → p.2.length < cs.length)
    {cs rep rest : List Char} (h : m cs = some (rep, rest)) :
    subAll m cs = rep ++ subAll m rest := by
  have hlt := Hdec _ _ h
  cases cs with
  | nil => simp at hlt
  | cons c tl =>
    unfold subAll
    simp only [List.length_cons, subAllF]
    rw [h]
    simp only [List.length_cons] at hlt
    show rep ++ subAllF m tl.length rest = rep ++ subAllF m rest.length rest
    rw [subAllF_fuel Hdec tl.length rest.length rest (by omega) le_rfl]

theorem subAll_skip {m : List Char → Option (List Char × List Char)}
    (X Y : List Char) (h : noMatchBelow m (X ++ Y) X.length) :
    subAll m (X ++ Y) = X ++ subAll m Y := by
  induction X with
  | nil => simp
  | cons x X ih =>
    have h0 := h 0 (by simp)
    simp only [List.drop_zero, List.cons_append] at h0
    show subAllF m ((x :: (X ++ Y)).length) (x :: (X ++ Y)) = _
    simp only [List.length_cons, subAllF]
    rw [h0]
    have ihh : noMatchBelow m (X ++ Y) X.length := by
      intro k hk
      have := h (k + 1) (by simp; omega)
      simpa using this
    show x :: subAllF m (X ++ Y).length (X ++ Y) = _
    rw [show subAllF m (X ++ Y).length (X ++ Y) = subAll m (X ++ Y) from rfl, ih ihh]
    simp

theorem subAll_nomatch {m : List Char → Option (List Char × List Char)}
    {cs : List Char} (h : noMatchBelow m cs cs.length) :
    subAll m cs = cs := by
  have h2 := subAll_skip cs [] (by simpa using h)
  simpa [show subAll m ([] : List Char) = [] from rfl] using h2

theorem subFirst_match_head {m : List Char → Option (List Char × List Char)}
    {c : Char} {tl rep rest : List Char} (h : m (c :: tl) = some (rep, rest)) :
    subFirst m (c :: tl) = rep ++ rest := by
  simp only [subFirst]
  rw [h]

theorem subFirst_skip {m : List Char → Option (List Char × List Char)}
    (X Y : List Char) (h : noMatchBelow m (X ++ Y) X.length) :
    subFirst m (X ++ Y) = X ++ subFirst m Y := by
  induction X with
  | nil => simp
  | cons x X ih =>
    have h0 := h 0 (by simp)
    simp only [List.drop_zero, List.cons_append] at h0
    show subFirst m (x :: (X ++ Y)) = _
    simp only [subFirst]
    rw [h0]
    have ihh : noMatchBelow m (X ++ Y) X.length := by
      intro k hk
      have := h (k + 1) (by simp; omega)
      simpa using this
    rw [ih ihh]
    simp

/-! ## The consumption property for the replacement matchers -/

theorem hideInsRepl_lt : ∀ cs p, hideInsRepl cs = some p → p.2.length < cs.length := by
  intro cs p h
  unfold hideInsRepl at h
  rw [Option.map_eq_some'] at h
  obtain ⟨g, hg, hfb⟩ := h
  have := matchHideIns_lt hg
  rw [← hfb]
  exact this

theorem hideDelRepl_lt : ∀ cs p, hideDelRepl cs = some p → p.2.length < cs.length := by
  intro cs p h
  unfold hideDelRepl at h
  rw [Option.map_eq_some'] at h
  obtain ⟨g, hg, hfb⟩ := h
  have := matchHideDel_lt hg
  rw [← hfb]
  exact this

theorem offImplRepl_lt (dx dy dz : ℚ) :
    ∀ cs p, offImplRepl dx dy dz cs = some p → p.2.length < cs.length := by
  intro cs p h
  unfold offImplRepl at h
  rw [Option.map_eq_some'] at h
  obtain ⟨g, hg, hfb⟩ := h
  have := matchTripleImpl_lt hg
  rw [← hfb]
  exact this

theorem posImplRepl_lt (x y z : ℚ) :
    ∀ cs p, posImplRepl x y z cs = some p → p.2.length < cs.length := by
  intro cs p h
  unfold posImplRepl at h
  rw [Option.map_eq_some'] at h
  obtain ⟨g, hg, hfb⟩ := h
  have := matchTripleImpl_lt hg
  rw [← hfb]
  exact this

theorem offIdxRepl_lt (dx dy dz : ℚ) :
    ∀ cs p, offIdxRepl dx dy dz cs = some p → p.2.length < cs.length := by
  intro cs p h
  unfold offIdxRepl at h
  rw [Option.map_eq_some'] at h
  obtain ⟨g, hg, hfb⟩ := h
  have := matchTripleIdx_lt hg
  rw [← hfb]
  exact this

theorem posIdxRepl_lt (x y z : ℚ) :
    ∀ cs p, posIdxRepl x y z cs = some p → p.2.length < cs.length := by
  intro cs p h
  unfold posIdxRepl at h
  rw [Option.map_eq_some'] at h
  obtain ⟨g, hg, hfb⟩ := h
  have := matchTripleIdx_lt hg
  rw [← hfb]
  exact this

/-! ## Character-class facts -/

theorem ps_space : isPySpace ' ' = true := rfl

theorem ps_quote : isPySpace '"' = false := rfl

theorem ps_lp : isPySpace '(' = false := rfl

theorem ps_rp : isPySpace ')' = false := rfl

theorem ps_cases {c : Char} (h : isPySpace c = true) :
    c = ' ' ∨ c = '\t' ∨ c = '\n' ∨ c = '\r' ∨ c = '\x0b' ∨ c = '\x0c' := by
  unfold isPySpace at h
  simp only [Bool.or_eq_true, decide_eq_true_eq] at h
  tauto

theorem ws_not_digit {c : Char} (h : isPySpace c = true) : isDigitCh c = false := by
  rcases ps_cases h with rfl | rfl | rfl | rfl | rfl | rfl <;> decide

theorem ws_ne_dot {c : Char} (h : isPySpace c = true) : c ≠ '.' := by
  rcases ps_cases h with rfl | rfl | rfl | rfl | rfl | rfl <;> decide

theorem ws_not_lp {c : Char} (h : isPySpace c = true) : c ≠ '(' := by
  rcases ps_cases h with rfl | rfl | rfl | rfl | rfl | rfl <;> decide

theorem ws_not_rp {c : Char} (h : isPySpace c = true) : c ≠ ')' := by
  rcases ps_cases h with rfl | rfl | rfl | rfl | rfl | rfl <;> decide

theorem digit_not_ws {c : Char} (h : isDigitCh c = true) : isPySpace c = false := by
  by_contra hc
  simp only [Bool.not_eq_false] at hc
  rcases ps_cases hc with rfl | rfl | rfl | rfl | rfl | rfl <;> simp [isDigitCh] at h

theorem sign_not_ws {c : Char} (h : (c = '+' || c = '-') = true) : isPySpace c = false := by
  simp only [Bool.or_eq_true, decide_eq_true_eq] at h
  rcases h with rfl | rfl <;> decide

/-! ## Evaluation of the matchers on structured inputs -/

theorem matchCore_eval (path w1 : List Char) (X : List Char)
    (hp1 : path ≠ []) (hp2 : ∀ c ∈ path, c ≠ '"') :
    matchCore (hdrOf path w1 ++ X)
      = some ("(model".toList ++ [' '] ++ '"' :: (path ++ ['"']), w1 ++ X) := by
  have hpath : ∀ c ∈ path, (fun c => !(c = '"')) c = true := by
    intro c hc
    simpa using hp2 c hc
  unfold hdrOf matchCore
  simp only [List.append_assoc, List.cons_append]
  rw [dropLit_append]
  dsimp only
  rw [List.takeWhile_cons_of_pos ps_space, List.takeWhile_cons_of_neg (by simp [ps_quote]),
      List.dropWhile_cons_of_pos ps_space, List.dropWhile_cons_of_neg (by simp [ps_quote])]
  have ht := takeWhile_app_cons (p := fun c => !(c = '"')) '"' (w1 ++ X) hpath (by simp)
  have hd := dropWhile_app_cons (p := fun c => !(c = '"')) '"' (w1 ++ X) hpath (by simp)
  simp [ht, hd, hp1]

theorem matchHdrW_eval (path w1 : List Char) (x : Char) (X : List Char)
    (hp1 : path ≠ []) (hp2 : ∀ c ∈ path, c ≠ '"')
    (hw1 : ∀ c ∈ w1, isPySpace c = true) (hnl : '\n' ∈ w1)
    (hx : isPySpace x = false) :
    matchHdrW (hdrOf path w1 ++ x :: X) = some (hdrOf path w1, x :: X) := by
  unfold matchHdrW
  rw [matchCore_eval path w1 (x :: X) hp1 hp2]
  dsimp only
  unfold matchWsNl
  rw [takeWhile_app_cons x X hw1 hx, dropWhile_app_cons x X hw1 hx]
  rw [if_pos (List.elem_eq_true_of_mem hnl)]
  dsimp only
  unfold hdrOf
  simp

theorem matchWsNl_eval (w : List Char) (x : Char) (X : List Char)
    (hw : ∀ c ∈ w, isPySpace c = true) (hnl : '\n' ∈ w) (hx : isPySpace x = false) :
    matchWsNl (w ++ x :: X) = some (w, x :: X) := by
  unfold matchWsNl
  rw [takeWhile_app_cons x X hw hx, dropWhile_app_cons x X hw hx]
  rw [if_pos (List.elem_eq_true_of_mem hnl)]

theorem matchWsPlus_eval (w : List Char) (x : Char) (X : List Char)
    (hw : ∀ c ∈ w, isPySpace c = true) (hne : w ≠ []) (hx : isPySpace x = false) :
    matchWsPlus (w ++ x :: X) = some (w, x :: X) := by
  unfold matchWsPlus
  rw [takeWhile_app_cons x X hw hx, dropWhile_app_cons x X hw hx]
  rw [if_neg (by simpa [List.isEmpty_iff] using hne)]

theorem matchParenLit_eval (c : Char) (l rest : List Char) (hc : isPySpace c = false) :
    matchParenLit (c :: l) ('(' :: ((c :: l) ++ rest)) = some ('(' :: (c :: l), rest) := by
  unfold matchParenLit
  have h1 : List.dropWhile isPySpace (c :: (l ++ rest)) = c :: (l ++ rest) :=
    List.dropWhile_cons_of_neg (by simp [hc])
  have h2 : List.takeWhile isPySpace (c :: (l ++ rest)) = [] :=
    List.takeWhile_cons_of_neg (by simp [hc])
  have h3 := dropLit_append (c :: l) rest
  simp only [List.cons_append] at h3
  simp [h1, h2, h3]

theorem takeWhile_eq_of_dropWhile_nil {p : Char → Bool} {l : List Char}
    (h : l.dropWhile p = []) : l.takeWhile p = l := by
  conv_rhs => rw [← List.takeWhile_append_dropWhile p l]
  rw [h, List.append_nil]

theorem numTokBody_extend {sgn rest : List Char} (h : numTokBody sgn rest = some (sgn ++ rest, []))
    (y : Char) (Y : List Char) (hy : isDigitCh y = false) (hy2 : y ≠ '.') :
    numTokBody sgn (rest ++ y :: Y) = some (sgn ++ rest, y :: Y) := by
  have hdig : ∀ c ∈ rest.takeWhile isDigitCh, isDigitCh c = true := by
    intro c hc
    exact List.mem_takeWhile_imp hc
  unfold numTokBody at h
  split at h
  · exact absurd h (by simp)
  next hne =>
    split at h
    next r3 heq3 =>
      rw [Option.some.injEq, Prod.mk.injEq] at h
      obtain ⟨h1, h2⟩ := h
      have hr3 : r3.takeWhile isDigitCh = r3 := takeWhile_eq_of_dropWhile_nil h2
      have hrest : rest = rest.takeWhile isDigitCh ++ '.' :: r3 := by
        conv_lhs => rw [← List.takeWhile_append_dropWhile isDigitCh rest]
        rw [heq3]
      have hr3dig : ∀ c ∈ r3, isDigitCh c = true := by
        intro c hc
        rw [← hr3] at hc
        exact List.mem_takeWhile_imp hc
      unfold numTokBody
      conv_lhs => rw [hrest]
      rw [List.append_assoc, List.cons_append]
      rw [takeWhile_app_cons '.' (r3 ++ y :: Y) hdig (by decide),
          dropWhile_app_cons '.' (r3 ++ y :: Y) hdig (by decide)]
      rw [if_neg hne]
      have ht2 := takeWhile_app_cons y Y hr3dig hy
      have hd2 := dropWhile_app_cons y Y hr3dig hy
      simp only [ht2, hd2, Option.some.injEq, Prod.mk.injEq, and_true]
      conv_rhs => rw [hrest]
      rw [List.append_assoc]
    next r2 heq2 =>
      rw [Option.some.injEq, Prod.mk.injEq] at h
      obtain ⟨h1, h2⟩ := h
      rw [h2] at heq2
      have hrest : rest.takeWhile isDigitCh = rest := takeWhile_eq_of_dropWhile_nil h2
      have hrd : ∀ c ∈ rest, isDigitCh c = true := by
        intro c hc
        rw [← hrest] at hc
        exact List.mem_takeWhile_imp hc
      unfold numTokBody
      rw [takeWhile_app_cons y Y hrd hy, dropWhile_app_cons y Y hrd hy]
      rw [if_neg (by
        simp only [List.isEmpty_iff]
        intro hh
        exact hne (by rw [hh]; rfl))]
      split
      next r3 heq3 =>
        exact absurd heq3 (by simp [hy2])
      · rfl

theorem numTok_extend {a : List Char} (h : numTokAll a) (y : Char) (Y : List Char)
    (hy : isDigitCh y = false) (hy2 : y ≠ '.') :
    matchNumTok (a ++ y :: Y) = some (a, y :: Y) := by
  unfold numTokAll at h
  unfold matchNumTok at h ⊢
  cases a with
  | nil => simp at h
  | cons c r =>
    rw [List.cons_append]
    dsimp only at h ⊢
    by_cases hc : (c = '+' || c = '-') = true
    · rw [if_pos hc] at h ⊢
      have h2 : numTokBody [c] r = some ([c] ++ r, []) := by simpa using h
      simpa using numTokBody_extend h2 y Y hy hy2
    · rw [if_neg hc] at h ⊢
      have h2 : numTokBody [] (c :: r) = some ([] ++ (c :: r), []) := by simpa using h
      have h3 := numTokBody_extend h2 y Y hy hy2
      simpa using h3

theorem numTok_head {a : List Char} (h : numTokAll a) :
    ∃ c r, a = c :: r ∧ isPySpace c = false := by
  unfold numTokAll at h
  unfold matchNumTok at h
  cases a with
  | nil => simp at h
  | cons c r =>
    refine ⟨c, r, rfl, ?_⟩
    dsimp only at h
    by_cases hc : (c = '+' || c = '-') = true
    · exact sign_not_ws hc
    · rw [if_neg hc] at h
      unfold numTokBody at h
      split at h
      · exact absurd h (by simp)
      next hne =>
        have : ∃ d l, (c :: r).takeWhile isDigitCh = d :: l := by
          cases heq : (c :: r).takeWhile isDigitCh with
          | nil => rw [heq] at hne; simp at hne
          | cons d l => exact ⟨d, l, rfl⟩
        obtain ⟨d, l, heq⟩ := this
        have hd : isDigitCh c = true := by
          cases heqc : isDigitCh c with
          | true => rfl
          | false =>
            rw [List.takeWhile_cons_of_neg (by simp [heqc])] at heq
            simp at heq
        exact digit_not_ws hd

theorem numTok_extend_run {a w : List Char} {k : Char} {Z : List Char} (h : numTokAll a)
    (hw : ∀ c ∈ w, isPySpace c = true) (hk : isDigitCh k = false) (hk2 : k ≠ '.') :
    matchNumTok (a ++ (w ++ k :: Z)) = some (a, w ++ k :: Z) := by
  cases w with
  | nil => simpa using numTok_extend h k Z hk hk2
  | cons u w2 =>
    have hu := hw u (by simp)
    have h1 := numTok_extend h u (w2 ++ k :: Z) (ws_not_digit hu) (ws_ne_dot hu)
    simpa using h1

theorem matchParenLit_offset (T : List Char) :
    matchParenLit "offset".toList ('(' :: ("offset".toList ++ T)) = some ("(offset".toList, T) := rfl

theorem matchHideParen_marker (Z : List Char) :
    matchHideParen ('(' :: ("hide yes)".toList ++ Z)) = some ("(hide yes)".toList, Z) := rfl

theorem matchWsPlus_sp {a : List Char} (Z : List Char) (h : numTokAll a) :
    matchWsPlus (' ' :: (a ++ Z)) = some ([' '], a ++ Z) := by
  obtain ⟨ca, ra, hae, hc⟩ := numTok_head h
  subst hae
  have := matchWsPlus_eval [' '] ca (ra ++ Z) (by simp [ps_space]) (by simp) hc
  simpa using this

theorem matchHideIns_eval (path w1 T : List Char)
    (hp1 : path ≠ []) (hp2 : ∀ ch ∈ path, ch ≠ '"')
    (hw1 : ∀ ch ∈ w1, isPySpace ch = true) (hnl : '\n' ∈ w1) :
    matchHideIns (hdrOf path w1 ++ ('(' :: ("offset".toList ++ T)))
      = some (hdrOf path w1, "(offset".toList, T) := by
  unfold matchHideIns
  rw [matchHdrW_eval path w1 '(' ("offset".toList ++ T) hp1 hp2 hw1 hnl ps_lp]
  dsimp only
  rw [matchParenLit_offset T]

theorem matchHideDel_eval (path w1 wh T : List Char)
    (hp1 : path ≠ []) (hp2 : ∀ ch ∈ path, ch ≠ '"')
    (hw1 : ∀ ch ∈ w1, isPySpace ch = true) (hnl : '\n' ∈ w1)
    (hwh : ∀ ch ∈ wh, isPySpace ch = true) (hnlh : '\n' ∈ wh) :
    matchHideDel (hdrOf path w1 ++
        ('(' :: ("hide yes)".toList ++ (wh ++ '(' :: ("offset".toList ++ T)))))
      = some (hdrOf path w1, "(offset".toList, T) := by
  unfold matchHideDel
  rw [matchHdrW_eval path w1 '(' ("hide yes)".toList ++ (wh ++ '(' :: ("offset".toList ++ T)))
        hp1 hp2 hw1 hnl ps_lp]
  dsimp only
  rw [matchHideParen_marker]
  dsimp only
  rw [matchWsNl_eval wh '(' ("offset".toList ++ T) hwh hnlh ps_lp]
  dsimp only
  rw [matchParenLit_offset T]

theorem matchTripleImpl_eval (path w1 w2 a b c w4 Z : List Char)
    (hp1 : path ≠ []) (hp2 : ∀ ch ∈ path, ch ≠ '"')
    (hw1 : ∀ ch ∈ w1, isPySpace ch = true) (hnl : '\n' ∈ w1)
    (hw2 : ∀ ch ∈ w2, isPySpace ch = true) (hnl2 : '\n' ∈ w2)
    (ha : numTokAll a) (hb : numTokAll b) (hc : numTokAll c)
    (hw4 : ∀ ch ∈ w4, isPySpace ch = true) :
    matchTripleImpl (hdrOf path w1 ++
        ('(' :: ("offset".toList ++
          (w2 ++ '(' :: ("xyz".toList ++ ' ' ::
            (a ++ ' ' :: (b ++ ' ' :: (c ++ (w4 ++ ')' :: Z)))))))))
      = some (hdrOf path w1 ++ "(offset".toList ++ w2 ++ "(xyz".toList ++ [' '],
              (a, b, c), w4 ++ [')'], Z) := by
  unfold matchTripleImpl
  rw [matchHdrW_eval path w1 '('
        ("offset".toList ++ (w2 ++ '(' :: ("xyz".toList ++ ' ' ::
          (a ++ ' ' :: (b ++ ' ' :: (c ++ (w4 ++ ')' :: Z)))))))
        hp1 hp2 hw1 hnl ps_lp]
  dsimp only
  rw [show optHide ('(' :: ("offset".toList ++
        (w2 ++ '(' :: ("xyz".toList ++ ' ' ::
          (a ++ ' ' :: (b ++ ' ' :: (c ++ (w4 ++ ')' :: Z))))))))
      = ([], '(' :: ("offset".toList ++
        (w2 ++ '(' :: ("xyz".toList ++ ' ' ::
          (a ++ ' ' :: (b ++ ' ' :: (c ++ (w4 ++ ')' :: Z)))))))) from rfl]
  dsimp only
  rw [show dropLit "(offset".toList ('(' :: ("offset".toList ++
        (w2 ++ '(' :: ("xyz".toList ++ ' ' ::
          (a ++ ' ' :: (b ++ ' ' :: (c ++ (w4 ++ ')' :: Z))))))))
      = some (w2 ++ '(' :: ("xyz".toList ++ ' ' ::
          (a ++ ' ' :: (b ++ ' ' :: (c ++ (w4 ++ ')' :: Z)))))) from rfl]
  dsimp only
  rw [matchWsNl_eval w2 '(' ("xyz".toList ++ ' ' ::
        (a ++ ' ' :: (b ++ ' ' :: (c ++ (w4 ++ ')' :: Z))))) hw2 hnl2 ps_lp]
  dsimp only
  rw [show dropLit "(xyz".toList ('(' :: ("xyz".toList ++ ' ' ::
        (a ++ ' ' :: (b ++ ' ' :: (c ++ (w4 ++ ')' :: Z))))))
      = some (' ' :: (a ++ ' ' :: (b ++ ' ' :: (c ++ (w4 ++ ')' :: Z))))) from rfl]
  dsimp only
  rw [matchWsPlus_sp (' ' :: (b ++ ' ' :: (c ++ (w4 ++ ')' :: Z)))) ha]
  dsimp only
  rw [numTok_extend ha ' ' (b ++ ' ' :: (c ++ (w4 ++ ')' :: Z))) (by decide) (by decide)]
  dsimp only
  rw [matchWsPlus_sp (' ' :: (c ++ (w4 ++ ')' :: Z))) hb]
  dsimp only
  rw [numTok_extend hb ' ' (c ++ (w4 ++ ')' :: Z)) (by decide) (by decide)]
  dsimp only
  rw [matchWsPlus_sp (w4 ++ ')' :: Z) hc]
  dsimp only
  rw [numTok_extend_run hc hw4 (by decide) (by decide)]
  dsimp only
  rw [takeWhile_app_cons ')' Z hw4 ps_rp, dropWhile_app_cons ')' Z hw4 ps_rp]
  simp

/-! ## Facts about the paren-counting scan -/

theorem scanBal_ge {cs : List Char} {d : Int} {n r : Nat} (h : scanBal cs d n = some r) :
    n + 1 ≤ r := by
  induction cs generalizing d n with
  | nil => simp [scanBal] at h
  | cons c tl ih =>
    unfold scanBal at h
    split at h
    · rw [Option.some.injEq] at h
      omega
    · have := ih h
      omega

theorem scanBal_le {cs : List Char} {d : Int} {n r : Nat} (h : scanBal cs d n = some r) :
    r ≤ n + cs.length := by
  induction cs generalizing d n with
  | nil => simp [scanBal] at h
  | cons c tl ih =>
    unfold scanBal at h
    split at h
    · rw [Option.some.injEq] at h
      simp only [List.length_cons]
      omega
    · have := ih h
      simp only [List.length_cons]
      omega

theorem scanBal_other {c : Char} {rest : List Char} {d : Int} {n : Nat}
    (hc : c ≠ '(' ∧ c ≠ ')') : scanBal (c :: rest) d n = scanBal rest d (n + 1) := by
  conv_lhs => unfold scanBal
  rw [if_neg (by simp [hc.2]), if_neg hc.1, if_neg hc.2]

theorem scanBal_seg {seg rest : List Char} {d : Int} {n : Nat}
    (h : ∀ c ∈ seg, c ≠ '(' ∧ c ≠ ')') :
    scanBal (seg ++ rest) d n = scanBal rest d (n + seg.length) := by
  induction seg generalizing n with
  | nil => simp
  | cons s seg ih =>
    rw [List.cons_append, scanBal_other (h s (by simp))]
    rw [ih (fun c hc => h c (by simp [hc]))]
    simp only [List.length_cons]
    ring_nf

theorem scanBal_open {rest : List Char} {d : Int} {n : Nat} :
    scanBal ('(' :: rest) d n = scanBal rest (d + 1) (n + 1) := by
  conv_lhs => unfold scanBal
  rw [if_neg (by simp), if_pos rfl]

theorem scanBal_close_pos {rest : List Char} {d : Int} {n : Nat} (hd : d ≠ 1) :
    scanBal (')' :: rest) d n = scanBal rest (d - 1) (n + 1) := by
  conv_lhs => unfold scanBal
  rw [if_neg (by simp; omega), if_neg (by decide), if_pos rfl]

theorem scanBal_close_zero {rest : List Char} {d : Int} {n : Nat} (hd : d = 1) :
    scanBal (')' :: rest) d n = some (n + 1) := by
  conv_lhs => unfold scanBal
  rw [if_pos (by simp; omega)]

theorem ws_no_paren {w : List Char} (hw : ∀ c ∈ w, isPySpace c = true) :
    ∀ c ∈ w, c ≠ '(' ∧ c ≠ ')' :=
  fun c hc => ⟨ws_not_lp (hw c hc), ws_not_rp (hw c hc)⟩

theorem numTokBody_chars {sgn rest t : List Char} (h : numTokBody sgn rest = some (t, [])) :
    ∀ c ∈ rest, isDigitCh c = true ∨ c = '.' := by
  unfold numTokBody at h
  split at h
  · exact absurd h (by simp)
  next hne =>
    split at h
    next r3 heq3 =>
      rw [Option.some.injEq, Prod.mk.injEq] at h
      obtain ⟨-, h2⟩ := h
      have hr3 : r3.takeWhile isDigitCh = r3 := takeWhile_eq_of_dropWhile_nil h2
      have hrest : rest = rest.takeWhile isDigitCh ++ '.' :: r3 := by
        conv_lhs => rw [← List.takeWhile_append_dropWhile isDigitCh rest]
        rw [heq3]
      intro c hc
      rw [hrest] at hc
      rcases List.mem_append.mp hc with hc2 | hc2
      · exact Or.inl (List.mem_takeWhile_imp hc2)
      · rcases List.mem_cons.mp hc2 with rfl | hc3
        · exact Or.inr rfl
        · rw [← hr3] at hc3
          exact Or.inl (List.mem_takeWhile_imp hc3)
    next r2 heq2 =>
      rw [Option.some.injEq, Prod.mk.injEq] at h
      obtain ⟨-, h2⟩ := h
      have hrest : rest.takeWhile isDigitCh = rest := takeWhile_eq_of_dropWhile_nil h2
      intro c hc
      rw [← hrest] at hc
      exact Or.inl (List.mem_takeWhile_imp hc)

theorem numTok_no_paren {a : List Char} (h : numTokAll a) :
    ∀ c ∈ a, c ≠ '(' ∧ c ≠ ')' := by
  unfold numTokAll at h
  unfold matchNumTok at h
  cases a with
  | nil => simp at h
  | cons c r =>
    dsimp only at h
    intro x hx
    have hdig : ∀ y : Char, isDigitCh y = true → y ≠ '(' ∧ y ≠ ')' := by
      intro y hy
      constructor <;> intro hh <;> rw [hh] at hy <;> exact absurd hy (by decide)
    by_cases hc : (c = '+' || c = '-') = true
    · rw [if_pos hc] at h
      have h2 : numTokBody [c] r = some ([c] ++ r, []) := by simpa using h
      rcases List.mem_cons.mp hx with rfl | hx2
      · simp only [Bool.or_eq_true, decide_eq_true_eq] at hc
        rcases hc with rfl | rfl <;> exact ⟨by decide, by decide⟩
      · rcases numTokBody_chars h2 x hx2 with hd | rfl
        · exact hdig x hd
        · exact ⟨by decide, by decide⟩
    · rw [if_neg hc] at h
      have h2 : numTokBody [] (c :: r) = some ([] ++ (c :: r), []) := by simpa using h
      rcases numTokBody_chars h2 x hx with hd | rfl
      · exact hdig x hd
      · exact ⟨by decide, by decide⟩

/-! ## The enumeration loop -/

theorem findModelStart_eval (X Y : List Char) (hX : noMatchBelow matchCore (X ++ Y) X.length)
    (hY : (matchCore Y).isSome) : findModelStart (X ++ Y) = some X.length := by
  induction X with
  | nil =>
    simp only [List.nil_append, List.length_nil]
    cases Y with
    | nil => simp [matchCore, dropLit] at hY
    | cons c tl =>
      rw [Option.isSome_iff_exists] at hY
      obtain ⟨v, hv⟩ := hY
      unfold findModelStart
      rw [hv]
  | cons x X ih =>
    have h0 := hX 0 (by simp)
    simp only [List.drop_zero, List.cons_append] at h0
    show findModelStart (x :: (X ++ Y)) = _
    unfold findModelStart
    rw [h0]
    rw [ih (fun k hk => by
      have := hX (k + 1) (by simp; omega)
      simpa using this)]
    simp

theorem findModelStart_none (cs : List Char) (h : noMatchBelow matchCore cs cs.length) :
    findModelStart cs = none := by
  induction cs with
  | nil => rfl
  | cons c tl ih =>
    have h0 := h 0 (by simp)
    simp only [List.drop_zero] at h0
    unfold findModelStart
    rw [h0, ih (fun k hk => by
      have := h (k + 1) (by simp; omega)
      simpa using this)]
    rfl

theorem enumMF_fuel : ∀ f g cs, cs.length < f → cs.length < g → enumMF f cs = enumMF g cs := by
  intro f
  induction f with
  | zero => intro g cs hf _; omega
  | succ f ih =>
    intro g cs hf hg
    cases g with
    | zero => omega
    | succ g2 =>
      simp only [enumMF]
      cases hfm : findModelStart cs with
      | none => rfl
      | some p =>
        dsimp only
        cases hsb : scanBal (cs.drop p) 0 0 with
        | none => rfl
        | some L =>
          dsimp only
          have hL := scanBal_ge hsb
          have hcs : cs ≠ [] := by
            intro hh
            rw [hh] at hfm
            simp [findModelStart] at hfm
          have hpos : 1 ≤ cs.length := List.length_pos.mpr hcs
          have hlen : (cs.drop (p + L)).length < f := by
            rw [List.length_drop]
            omega
          have hlen2 : (cs.drop (p + L)).length < g2 := by
            rw [List.length_drop]
            omega
          rw [ih g2 (cs.drop (p + L)) hlen hlen2]

theorem enum_cons {cs : List Char} {p L : Nat} {ms : List (Nat × Nat × List Char)}
    (h1 : findModelStart cs = some p) (h2 : scanBal (cs.drop p) 0 0 = some L)
    (h3 : enumModels (cs.drop (p + L)) = some ms) :
    enumModels cs = some ((p, p + L, (cs.drop p).take L) ::
      ms.map (fun t => (p + L + t.1, p + L + t.2.1, t.2.2))) := by
  have hcs : cs ≠ [] := by
    intro hh
    rw [hh] at h1
    simp [findModelStart] at h1
  have hpos : 1 ≤ cs.length := List.length_pos.mpr hcs
  have hL := scanBal_ge h2
  unfold enumModels at h3 ⊢
  simp only [enumMF]
  rw [h1]
  dsimp only
  rw [h2]
  dsimp only
  rw [enumMF_fuel cs.length ((cs.drop (p + L)).length + 1) (cs.drop (p + L))
        (by rw [List.length_drop]; omega) (by omega)]
  rw [h3]

theorem enum_empty (cs : List Char) (h : findModelStart cs = none) :
    enumModels cs = some [] := by
  unfold enumModels
  simp only [enumMF]
  rw [h]

/-! ## Facts about `parse_kicad_pcb` -/

theorem insertFp_mem {k : List Char} {v : List Char × Nat × Nat}
    {m : List (List Char × List Char × Nat × Nat)} {x} (hx : x ∈ insertFp k v m) :
    x = (k, v) ∨ x ∈ m := by
  induction m with
  | nil => simpa [insertFp] using hx
  | cons h2 tl ih =>
    obtain ⟨k2, v2⟩ := h2
    unfold insertFp at hx
    split at hx
    · rcases List.mem_cons.mp hx with rfl | hx2
      · exact Or.inl rfl
      · exact Or.inr (by simp [hx2])
    · rcases List.mem_cons.mp hx with rfl | hx2
      · exact Or.inr (by simp)
      · rcases ih hx2 with h3 | h3
        · exact Or.inl h3
        · exact Or.inr (by simp [h3])

theorem lookupFp_mem {m : List (List Char × List Char × Nat × Nat)} {ref : List Char}
    {v : List Char × Nat × Nat} (h : lookupFp m ref = some v) : (ref, v) ∈ m := by
  induction m with
  | nil => simp [lookupFp] at h
  | cons h2 tl ih =>
    obtain ⟨k2, v2⟩ := h2
    unfold lookupFp at h
    split at h
    next heq =>
      rw [Option.some.injEq] at h
      subst h
      subst heq
      simp
    · exact List.mem_cons.mpr (Or.inr (ih h))

/-- Every entry of the footprint dictionary is a slice of the document
delimited by a balanced paren scan. -/
theorem parse_entry_shape (content : List Char) :
    ∀ x ∈ parse_kicad_pcb content, ∃ p L,
      scanBal (content.drop p) 0 0 = some L ∧
      x.2 = ((content.drop p).take L, p, p + L) := by
  unfold parse_kicad_pcb
  suffices H : ∀ (ps : List Nat) (acc : List (List Char × List Char × Nat × Nat)),
      (∀ x ∈ acc, ∃ p L, scanBal (content.drop p) 0 0 = some L ∧
        x.2 = ((content.drop p).take L, p, p + L)) →
      ∀ x ∈ ps.foldl (fun fps p =>
        match scanBal (content.drop p) 0 0 with
        | none => fps
        | some len =>
          match searchFirst refPat ((content.drop p).take len) with
          | some ref => insertFp ref ((content.drop p).take len, p, p + len) fps
          | none => fps) acc,
      ∃ p L, scanBal (content.drop p) 0 0 = some L ∧
        x.2 = ((content.drop p).take L, p, p + L) by
    exact H _ [] (by simp)
  intro ps
  induction ps with
  | nil =>
    intro acc hacc
    simpa using hacc
  | cons q ps ih =>
    intro acc hacc
    simp only [List.foldl_cons]
    apply ih
    intro x hx
    cases hsb : scanBal (content.drop q) 0 0 with
    | none =>
      rw [hsb] at hx
      exact hacc x hx
    | some len =>
      rw [hsb] at hx
      dsimp only at hx
      cases hsf : searchFirst refPat ((content.drop q).take len) with
      | none =>
        rw [hsf] at hx
        exact hacc x hx
      | some ref =>
        rw [hsf] at hx
        dsimp only at hx
        rcases insertFp_mem hx with rfl | hx2
        · exact ⟨q, len, hsb, rfl⟩
        · exact hacc x hx2

/-! ## C10 -/

/-- C10: a footprint text containing no model sub-record (the model opening
pattern matches nowhere) makes every indexed mutation, for every index and
every operation, return the text unchanged: the absence of models is a
'no models found' no-op, not an out-of-range error. -/
theorem c10_no_models (code : List Char) (idx : Int) (op : ModelOp)
    (h : findModelStart code = none) :
    modify_specific_model_by_index code idx op = some code := by
  unfold modify_specific_model_by_index
  rw [enum_empty code h]
  rfl

/-- Witness for `c10_no_models` at a concrete model-free footprint. -/
theorem c10_witness :
    findModelStart "(footprint \"x\")".toList = none ∧
    modify_specific_model_by_index "(footprint \"x\")".toList 0 ModelOp.hideOp
      = some "(footprint \"x\")".toList :=
  ⟨by decide, c10_no_models "(footprint \"x\")".toList 0 ModelOp.hideOp (by decide)⟩

/-! ## C1 -/

/-- C1, counterexample to the claim as stated: on a document whose record
`U1` has two models, requesting index 5 leaves the document content
unchanged but the file IS written (with byte-identical content): the write
flag is `true`, contradicting "no write is performed". -/
theorem c1_counterexample :
    runIndexedCli doc1 "U1".toList 5 ModelOp.hideOp = some (doc1, true) := by
  decide

/-- C1 (amended): for every document, reference and out-of-range index
(negative or at least the number of enumerated models, the record having at
least one model), every indexed mutation reports an error and performs no
mutation: the returned record text equals the input and the resulting
document content equals the original — but the file is rewritten (with
identical content), so a write IS performed. -/
theorem c1_theorem (content ref full_data : List Char) (s e : Nat) (idx : Int)
    (op : ModelOp) (ms : List (Nat × Nat × List Char))
    (hlook : lookupFp (parse_kicad_pcb content) ref = some (full_data, s, e))
    (henum : enumModels full_data = some ms) (hne : ms ≠ [])
    (hidx : idx < 0 ∨ (ms.length : Int) ≤ idx) :
    modify_specific_model_by_index full_data idx op = some full_data ∧
    runIndexedCli content ref idx op = some (content, true) := by
  have hmod : modify_specific_model_by_index full_data idx op = some full_data := by
    unfold modify_specific_model_by_index
    rw [henum]
    dsimp only
    rw [if_neg (by simpa [List.isEmpty_iff] using hne), if_pos hidx]
  refine ⟨hmod, ?_⟩
  have hmem := lookupFp_mem hlook
  obtain ⟨p, L, hscan, hshape⟩ := parse_entry_shape content _ hmem
  simp only [Prod.mk.injEq] at hshape
  obtain ⟨hfull, hs, he⟩ := hshape
  have hsplice : content.take s ++ (full_data ++ content.drop e) = content := by
    rw [hfull, hs, he]
    have h1 : content.drop (p + L) = (content.drop p).drop L := by
      rw [List.drop_drop, Nat.add_comm]
    rw [h1, List.take_append_drop, List.take_append_drop]
  unfold runIndexedCli
  rw [hlook]
  dsimp only
  rw [hmod]
  dsimp only
  unfold replace_footprint_in_file
  rw [hlook]
  dsimp only
  rw [Option.some.injEq, Prod.mk.injEq]
  exact ⟨by rw [← List.append_assoc] at hsplice; exact hsplice, rfl⟩

/-- Witness for `c1_theorem` at the concrete scenario: index 5 on a record
with two models. -/
theorem c1_witness :
    (∃ fd ms, lookupFp (parse_kicad_pcb doc1) "U1".toList = some (fd, 11, 163) ∧
      enumModels fd = some ms ∧ ms ≠ [] ∧ ((5 : Int) < 0 ∨ (ms.length : Int) ≤ 5)) ∧
    runIndexedCli doc1 "U1".toList 5 ModelOp.showOp = some (doc1, true) := by
  refine ⟨⟨rc2, [(47, 101, (rc2.drop 47).take 54), (103, 150, (rc2.drop 103).take 47)],
    by decide, by decide, by decide, by decide⟩, ?_⟩
  exact (c1_theorem doc1 "U1".toList rc2 11 163 5 ModelOp.showOp
    [(47, 101, (rc2.drop 47).take 54), (103, 150, (rc2.drop 103).take 47)]
    (by decide) (by decide) (by decide) (by decide)).2

/-! ## C4: balance of indexed spans -/

theorem balInt_cons (c : Char) (l : List Char) :
    balInt (c :: l) = (if c = '(' then 1 else if c = ')' then -1 else 0) + balInt l := by
  simp [balInt]

theorem scanBal_spec :
    ∀ (cs : List Char) (d : Int) (n r : Nat), scanBal cs d n = some r →
      ∃ m, r = n + m ∧ 1 ≤ m ∧ m ≤ cs.length ∧ d + balInt (cs.take m) = 0 ∧
        (1 ≤ d → ∀ j < m, d + balInt (cs.take j) ≠ 0) := by
  intro cs
  induction cs with
  | nil => intro d n r h; simp [scanBal] at h
  | cons c tl ih =>
    intro d n r h
    unfold scanBal at h
    split at h
    next hcond =>
      rw [Option.some.injEq] at h
      obtain ⟨hc, hd⟩ := hcond
      refine ⟨1, by omega, le_rfl, by simp, ?_, ?_⟩
      · subst hc
        simp [List.take_one, balInt]
        omega
      · intro hd1 j hj
        have : j = 0 := by omega
        subst this
        simp [balInt]
        omega
    next hcond =>
      obtain ⟨m, hm, h1, h2, h3, h4⟩ := ih _ _ _ h
      have hD : (if c = '(' then d + 1 else if c = ')' then d - 1 else d)
          = d + (if c = '(' then (1 : Int) else if c = ')' then -1 else 0) := by
        split_ifs <;> ring
      rw [hD] at h h3 h4
      refine ⟨m + 1, by omega, by omega, by simp; omega, ?_, ?_⟩
      · rw [show (c :: tl).take (m + 1) = c :: tl.take m from rfl, balInt_cons]
        omega
      · intro hd1 j hj
        cases j with
        | zero =>
          simp [balInt]
          omega
        | succ j2 =>
          rw [show (c :: tl).take (j2 + 1) = c :: tl.take j2 from rfl, balInt_cons]
          have hD1 : 1 ≤ d + (if c = '(' then (1 : Int) else if c = ')' then -1 else 0) := by
            by_cases hcp : c = '('

            · simp [hcp]; omega
            · by_cases hcr : c = ')'
              · have : ¬(d - 1 = 0) := by
                  intro hh
                  exact hcond ⟨hcr, hh⟩
                simp [hcp, hcr]
                omega
              · simp [hcp, hcr]; omega
          have := h4 hD1 j2 (by omega)
          omega

theorem findLitStarts_mem {lit : List Char} :
    ∀ {f : Nat} {cs : List Char} {p : Nat}, p ∈ findLitStartsF lit f cs →
      (dropLit lit (cs.drop p)).isSome := by
  intro f
  induction f with
  | zero => intro cs p hp; simp [findLitStartsF] at hp
  | succ f ih =>
    intro cs p hp
    cases cs with
    | nil => simp [findLitStartsF] at hp
    | cons c tl =>
      unfold findLitStartsF at hp
      split at hp
      next r hdl =>
        rcases List.mem_cons.mp hp with rfl | hp2
        · simp [hdl]
        · rw [List.mem_map] at hp2
          obtain ⟨q, hq, rfl⟩ := hp2
          have hdec := dropLit_eq hdl
          rw [hdec]
          have hdrop : (lit ++ r).drop (q + lit.length) = r.drop q := by
            rw [show q + lit.length = lit.length + q by omega, ← List.drop_drop,
                List.drop_left]
          rw [hdrop]
          exact ih hq
      next hdl =>
        rw [List.mem_map] at hp
        obtain ⟨q, hq, rfl⟩ := hp
        simpa using ih hq

/-- `parse_entry_shape` plus the fact that each entry's start offset is an
occurrence of the `(footprint` marker. -/
theorem parse_entry_shape2 (content : List Char) :
    ∀ x ∈ parse_kicad_pcb content, ∃ p L,
      scanBal (content.drop p) 0 0 = some L ∧
      x.2 = ((content.drop p).take L, p, p + L) ∧
      (dropLit "(footprint".toList (content.drop p)).isSome := by
  unfold parse_kicad_pcb
  suffices H : ∀ (ps : List Nat) (acc : List (List Char × List Char × Nat × Nat)),
      (∀ q ∈ ps, (dropLit "(footprint".toList (content.drop q)).isSome) →
      (∀ x ∈ acc, ∃ p L, scanBal (content.drop p) 0 0 = some L ∧
        x.2 = ((content.drop p).take L, p, p + L) ∧
        (dropLit "(footprint".toList (content.drop p)).isSome) →
      ∀ x ∈ ps.foldl (fun fps p =>
        match scanBal (content.drop p) 0 0 with
        | none => fps
        | some len =>
          match searchFirst refPat ((content.drop p).take len) with
          | some ref => insertFp ref ((content.drop p).take len, p, p + len) fps
          | none => fps) acc,
      ∃ p L, scanBal (content.drop p) 0 0 = some L ∧
        x.2 = ((content.drop p).take L, p, p + L) ∧
        (dropLit "(footprint".toList (content.drop p)).isSome by
    exact H _ [] (fun q hq => findLitStarts_mem hq) (by simp)
  intro ps
  induction ps with
  | nil =>
    intro acc _ hacc
    simpa using hacc
  | cons q ps ih =>
    intro acc hps hacc
    simp only [List.foldl_cons]
    apply ih
    · exact fun q2 hq2 => hps q2 (by simp [hq2])
    intro x hx
    cases hsb : scanBal (content.drop q) 0 0 with
    | none =>
      rw [hsb] at hx
      exact hacc x hx
    | some len =>
      rw [hsb] at hx
      dsimp only at hx
      cases hsf : searchFirst refPat ((content.drop q).take len) with
      | none =>
        rw [hsf] at hx
        exact hacc x hx
      | some ref =>
        rw [hsf] at hx
        dsimp only at hx
        rcases insertFp_mem hx with rfl | hx2
        · exact ⟨q, len, hsb, rfl, hps q (by simp)⟩
        · exact hacc x hx2

/-- C4, counterexample to the no-overlap part as stated: on a balanced
document with a `(footprint` marker nested inside another record's span,
both records are indexed and span `B = [39, 77)` lies inside span
`A = [1, 78)` — they overlap. -/
theorem c4_counterexample :
    (lookupFp (parse_kicad_pcb nestedDoc) "A".toList).map (fun t => (t.2.1, t.2.2))
        = some (1, 78) ∧
    (lookupFp (parse_kicad_pcb nestedDoc) "B".toList).map (fun t => (t.2.1, t.2.2))
        = some (39, 77) ∧
    ((1 : Nat) ≤ 39 ∧ 39 < 78) := by
  decide

/-- C4 (amended): every indexed record's span, depth-counted independently
from its start, balances to zero exactly at its recorded end offset; and
the spans of two records with distinct references are disjoint provided
neither record's marker occurrence lies strictly inside the other's span
(nested marker occurrences, as in `c4_counterexample`, do produce
overlapping spans). -/
theorem c4_theorem (content r1 r2 t1 t2 : List Char) (s1 e1 s2 e2 : Nat)
    (h1 : lookupFp (parse_kicad_pcb content) r1 = some (t1, s1, e1))
    (h2 : lookupFp (parse_kicad_pcb content) r2 = some (t2, s2, e2))
    (href : r1 ≠ r2)
    (hn1 : ¬(s1 ≤ s2 ∧ s2 < e1)) (hn2 : ¬(s2 ≤ s1 ∧ s1 < e2)) :
    (e1 = s1 + t1.length ∧ balInt t1 = 0 ∧
      (∀ j, 0 < j → j < t1.length → balInt (t1.take j) ≠ 0)) ∧
    (e1 ≤ s2 ∨ e2 ≤ s1) := by
  obtain ⟨p, L, hscan, hshape, hlit⟩ := parse_entry_shape2 content _ (lookupFp_mem h1)
  simp only [Prod.mk.injEq] at hshape
  obtain ⟨ht1, hs1, he1⟩ := hshape
  rw [Option.isSome_iff_exists] at hlit
  obtain ⟨rr, hrr⟩ := hlit
  have hdec := dropLit_eq hrr
  have hdrop : content.drop p = '(' :: ("footprint".toList ++ rr) := by
    rw [hdec]
    rfl
  rw [hdrop] at hscan ht1
  rw [scanBal_open] at hscan
  obtain ⟨m, hm, hm1, hm2, hbal, hnz⟩ := scanBal_spec _ _ _ _ hscan
  have hLm : L = m + 1 := by omega
  have htake : t1 = '(' :: ("footprint".toList ++ rr).take m := by
    rw [ht1, hLm, List.take_succ_cons]
  have hlen : t1.length = m + 1 := by
    rw [htake]
    simp only [List.length_cons, List.length_take]
    omega
  have hif : (if ('(' : Char) = '(' then (1 : Int) else if ('(' : Char) = ')' then -1 else 0)
      = 1 := by decide
  have hbalance : balInt t1 = 0 := by
    rw [htake, balInt_cons, hif]
    linarith [hbal]
  have hearly : ∀ j, 0 < j → j < t1.length → balInt (t1.take j) ≠ 0 := by
    intro j hj0 hjlen
    rw [htake]
    cases j with
    | zero => omega
    | succ j2 =>
      rw [List.take_succ_cons, balInt_cons, hif]
      rw [List.take_take]
      rw [min_eq_left (by rw [hlen] at hjlen; omega : j2 ≤ m)]
      intro hcon
      exact hnz (by omega) j2 (by rw [hlen] at hjlen; omega) (by linarith [hcon])
  refine ⟨⟨by omega, hbalance, hearly⟩, ?_⟩
  obtain ⟨p2, L2, hscan2, hshape2, -⟩ := parse_entry_shape2 content _ (lookupFp_mem h2)
  simp only [Prod.mk.injEq] at hshape2
  obtain ⟨-, hs2, he2⟩ := hshape2
  have hL2 : 1 ≤ L2 := by
    have := scanBal_ge hscan2
    omega
  omega

/-- Witness for `c4_theorem` on a two-record document with disjoint,
non-nested records. -/
theorem c4_witness :
    (lookupFp (parse_kicad_pcb dupDoc2) "A".toList = some ((dupDoc2.drop 0).take 44, 0, 44) ∧
     lookupFp (parse_kicad_pcb dupDoc2) "B".toList = some ((dupDoc2.drop 47).take 44, 47, 91) ∧
     ("A".toList ≠ "B".toList) ∧ ¬((0 : Nat) ≤ 47 ∧ 47 < 44) ∧ ¬((47 : Nat) ≤ 0 ∧ 0 < 91)) ∧
    (44 = 0 + ((dupDoc2.drop 0).take 44).length ∧ balInt ((dupDoc2.drop 0).take 44) = 0 ∧
      (∀ j, 0 < j → j < ((dupDoc2.drop 0).take 44).length →
        balInt (((dupDoc2.drop 0).take 44).take j) ≠ 0)) ∧
    ((44 : Nat) ≤ 47 ∨ (91 : Nat) ≤ 0) := by
  refine ⟨⟨by decide, by decide, by decide, by decide, by decide⟩, ?_⟩
  exact c4_theorem dupDoc2 "A".toList "B".toList ((dupDoc2.drop 0).take 44)
    ((dupDoc2.drop 47).take 44) 0 44 47 91 (by decide) (by decide) (by decide)
    (by decide) (by decide)

/-! ## Substitution over texts with one or two match sites -/

theorem subAll_one {m : List Char → Option (List Char × List Char)}
    (Hdec : ∀ cs p, m cs = some p → p.2.length < cs.length)
    (A : List Char) {R1 rep1 T1 : List Char}
    (hA : noMatchBelow m (A ++ R1) A.length)
    (h1 : m R1 = some (rep1, T1))
    (hT1 : noMatchBelow m T1 T1.length) :
    subAll m (A ++ R1) = A ++ (rep1 ++ T1) := by
  rw [subAll_skip A R1 hA, subAll_match_head Hdec h1, subAll_nomatch hT1]

theorem subAll_two {m : List Char → Option (List Char × List Char)}
    (Hdec : ∀ cs p, m cs = some p → p.2.length < cs.length)
    (A : List Char) {R1 rep1 T1 R2 rep2 T2 : List Char}
    (hA : noMatchBelow m (A ++ R1) A.length)
    (h1 : m R1 = some (rep1, T1 ++ R2))
    (hT1 : noMatchBelow m (T1 ++ R2) T1.length)
    (h2 : m R2 = some (rep2, T2))
    (hT2 : noMatchBelow m T2 T2.length) :
    subAll m (A ++ R1) = A ++ (rep1 ++ (T1 ++ (rep2 ++ T2))) := by
  rw [subAll_skip A R1 hA, subAll_match_head Hdec h1, subAll_skip T1 R2 hT1,
      subAll_match_head Hdec h2, subAll_nomatch hT2]

/-! ## Evaluation of the replacement functions on structured sites -/

theorem hideInsRepl_eval (path w1 T : List Char)
    (hp1 : path ≠ []) (hp2 : ∀ ch ∈ path, ch ≠ '"')
    (hw1 : ∀ ch ∈ w1, isPySpace ch = true) (hnl : '\n' ∈ w1) :
    hideInsRepl (hdrOf path w1 ++ ('(' :: ("offset".toList ++ T)))
      = some (hdrOf path w1 ++ (hideMarkIns ++ "(offset".toList), T) := by
  unfold hideInsRepl
  rw [matchHideIns_eval path w1 T hp1 hp2 hw1 hnl]
  simp

theorem hideDelRepl_eval (path w1 wh T : List Char)
    (hp1 : path ≠ []) (hp2 : ∀ ch ∈ path, ch ≠ '"')
    (hw1 : ∀ ch ∈ w1, isPySpace ch = true) (hnl : '\n' ∈ w1)
    (hwh : ∀ ch ∈ wh, isPySpace ch = true) (hnlh : '\n' ∈ wh) :
    hideDelRepl (hdrOf path w1 ++
        ('(' :: ("hide yes)".toList ++ (wh ++ '(' :: ("offset".toList ++ T)))))
      = some (hdrOf path w1 ++ "(offset".toList, T) := by
  unfold hideDelRepl
  rw [matchHideDel_eval path w1 wh T hp1 hp2 hw1 hnl hwh hnlh]
  simp

theorem offImplRepl_eval (dx dy dz : ℚ) (path w1 w2 a b c w4 Z : List Char)
    (hp1 : path ≠ []) (hp2 : ∀ ch ∈ path, ch ≠ '"')
    (hw1 : ∀ ch ∈ w1, isPySpace ch = true) (hnl : '\n' ∈ w1)
    (hw2 : ∀ ch ∈ w2, isPySpace ch = true) (hnl2 : '\n' ∈ w2)
    (ha : numTokAll a) (hb : numTokAll b) (hc : numTokAll c)
    (hw4 : ∀ ch ∈ w4, isPySpace ch = true) :
    offImplRepl dx dy dz (hdrOf path w1 ++
        ('(' :: ("offset".toList ++
          (w2 ++ '(' :: ("xyz".toList ++ ' ' ::
            (a ++ ' ' :: (b ++ ' ' :: (c ++ (w4 ++ ')' :: Z)))))))))
      = some ((hdrOf path w1 ++ "(offset".toList ++ w2 ++ "(xyz".toList ++ [' ']) ++
          (fmtNum (parseNum a + dx) ++
            ' ' :: (fmtNum (parseNum b + dy) ++
            ' ' :: (fmtNum (parseNum c + dz) ++ (w4 ++ [')'])))), Z) := by
  unfold offImplRepl
  rw [matchTripleImpl_eval path w1 w2 a b c w4 Z hp1 hp2 hw1 hnl hw2 hnl2 ha hb hc hw4]
  simp

theorem posImplRepl_eval (x y z : ℚ) (path w1 w2 a b c w4 Z : List Char)
    (hp1 : path ≠ []) (hp2 : ∀ ch ∈ path, ch ≠ '"')
    (hw1 : ∀ ch ∈ w1, isPySpace ch = true) (hnl : '\n' ∈ w1)
    (hw2 : ∀ ch ∈ w2, isPySpace ch = true) (hnl2 : '\n' ∈ w2)
    (ha : numTokAll a) (hb : numTokAll b) (hc : numTokAll c)
    (hw4 : ∀ ch ∈ w4, isPySpace ch = true) :
    posImplRepl x y z (hdrOf path w1 ++
        ('(' :: ("offset".toList ++
          (w2 ++ '(' :: ("xyz".toList ++ ' ' ::
            (a ++ ' ' :: (b ++ ' ' :: (c ++ (w4 ++ ')' :: Z)))))))))
      = some ((hdrOf path w1 ++ "(offset".toList ++ w2 ++ "(xyz".toList ++ [' ']) ++
          (fmtNum x ++ ' ' :: (fmtNum y ++ ' ' :: (fmtNum z ++ (w4 ++ [')'])))), Z) := by
  unfold posImplRepl
  rw [matchTripleImpl_eval path w1 w2 a b c w4 Z hp1 hp2 hw1 hnl hw2 hnl2 ha hb hc hw4]
  simp

/-! ## C2 -/

theorem noMatch_off_of_tri {cs : List Char} {n : Nat} (dx dy dz : ℚ)
    (h : noMatchBelow matchTripleImpl cs n) : noMatchBelow (offImplRepl dx dy dz) cs n := by
  intro k hk
  unfold offImplRepl
  rw [h k hk]
  rfl

theorem noMatch_pos_of_tri {cs : List Char} {n : Nat} (x y z : ℚ)
    (h : noMatchBelow matchTripleImpl cs n) : noMatchBelow (posImplRepl x y z) cs n := by
  intro k hk
  unfold posImplRepl
  rw [h k hk]
  rfl

/-- C2, counterexample to the claim as stated: on the two-model record
`rc2`, the implicit (no-index) hide modifies the SECOND enumerated model's
text as well — the substitution is global, not first-occurrence-only. -/
theorem c2_counterexample :
    (modelTexts rc2).map List.length = some 2 ∧
    (modelTexts (add_hide_to_model rc2)).map List.length = some 2 ∧
    (modelTexts (add_hide_to_model rc2)).map (fun l => l.getD 1 [])
      ≠ (modelTexts rc2).map (fun l => l.getD 1 []) := by
  refine ⟨by decide, by decide, by decide⟩

/-- C2 (amended): an implicit-target (no index) mutation — hide, show,
offset or set-position — rewrites EVERY matching model occurrence of the
record, not only the first.  Stated on texts containing two match sites
separated by arbitrary non-matching text: both sites are rewritten. -/
theorem c2_theorem
    (A T1 T2 p1 w1 p2 w2 wh1 wh2 w21 w22 a1 b1 c1 a2 b2 c2 w41 w42 : List Char)
    (dx dy dz x y z : ℚ)
    (hp11 : p1 ≠ []) (hp12 : ∀ ch ∈ p1, ch ≠ '"')
    (hp21 : p2 ≠ []) (hp22 : ∀ ch ∈ p2, ch ≠ '"')
    (hw1 : ∀ ch ∈ w1, isPySpace ch = true) (hnl1 : '\n' ∈ w1)
    (hw2 : ∀ ch ∈ w2, isPySpace ch = true) (hnl2 : '\n' ∈ w2)
    (hwh1 : ∀ ch ∈ wh1, isPySpace ch = true) (hnlh1 : '\n' ∈ wh1)
    (hwh2 : ∀ ch ∈ wh2, isPySpace ch = true) (hnlh2 : '\n' ∈ wh2)
    (hw21 : ∀ ch ∈ w21, isPySpace ch = true) (hnl21 : '\n' ∈ w21)
    (hw22 : ∀ ch ∈ w22, isPySpace ch = true) (hnl22 : '\n' ∈ w22)
    (hw41 : ∀ ch ∈ w41, isPySpace ch = true) (hw42 : ∀ ch ∈ w42, isPySpace ch = true)
    (ha1 : numTokAll a1) (hb1 : numTokAll b1) (hc1 : numTokAll c1)
    (ha2 : numTokAll a2) (hb2 : numTokAll b2) (hc2 : numTokAll c2)
    (hAh : noMatchBelow matchHideIns (A ++ (hdrOf p1 w1 ++ ('(' :: ("offset".toList ++
      (T1 ++ (hdrOf p2 w2 ++ ('(' :: ("offset".toList ++ T2)))))))) A.length)
    (hT1h : noMatchBelow matchHideIns
      (T1 ++ (hdrOf p2 w2 ++ ('(' :: ("offset".toList ++ T2)))) T1.length)
    (hT2h : noMatchBelow matchHideIns T2 T2.length)
    (hAd : noMatchBelow matchHideDel (A ++ (hdrOf p1 w1 ++
      ('(' :: ("hide yes)".toList ++ (wh1 ++ '(' :: ("offset".toList ++
      (T1 ++ (hdrOf p2 w2 ++ ('(' :: ("hide yes)".toList ++
        (wh2 ++ '(' :: ("offset".toList ++ T2)))))))))))) A.length)
    (hT1d : noMatchBelow matchHideDel
      (T1 ++ (hdrOf p2 w2 ++ ('(' :: ("hide yes)".toList ++
        (wh2 ++ '(' :: ("offset".toList ++ T2)))))) T1.length)
    (hT2d : noMatchBelow matchHideDel T2 T2.length)
    (hAt : noMatchBelow matchTripleImpl (A ++ (hdrOf p1 w1 ++ ('(' :: ("offset".toList ++
      (w21 ++ '(' :: ("xyz".toList ++ ' ' :: (a1 ++ ' ' :: (b1 ++ ' ' :: (c1 ++ (w41 ++ ')' ::
      (T1 ++ (hdrOf p2 w2 ++ ('(' :: ("offset".toList ++
      (w22 ++ '(' :: ("xyz".toList ++ ' ' :: (a2 ++ ' ' :: (b2 ++ ' ' :: (c2 ++ (w42 ++ ')' ::
      T2)))))))))))))))))))) A.length)
    (hT1t : noMatchBelow matchTripleImpl
      (T1 ++ (hdrOf p2 w2 ++ ('(' :: ("offset".toList ++
      (w22 ++ '(' :: ("xyz".toList ++ ' ' :: (a2 ++ ' ' :: (b2 ++ ' ' :: (c2 ++ (w42 ++ ')' ::
      T2)))))))))) T1.length)
    (hT2t : noMatchBelow matchTripleImpl T2 T2.length) :
    add_hide_to_model (A ++ (hdrOf p1 w1 ++ ('(' :: ("offset".toList ++
        (T1 ++ (hdrOf p2 w2 ++ ('(' :: ("offset".toList ++ T2))))))))
      = A ++ ((hdrOf p1 w1 ++ (hideMarkIns ++ "(offset".toList)) ++
          (T1 ++ ((hdrOf p2 w2 ++ (hideMarkIns ++ "(offset".toList)) ++ T2))) ∧
    remove_hide_from_model (A ++ (hdrOf p1 w1 ++
        ('(' :: ("hide yes)".toList ++ (wh1 ++ '(' :: ("offset".toList ++
        (T1 ++ (hdrOf p2 w2 ++ ('(' :: ("hide yes)".toList ++
          (wh2 ++ '(' :: ("offset".toList ++ T2))))))))))))
      = A ++ ((hdrOf p1 w1 ++ "(offset".toList) ++
          (T1 ++ ((hdrOf p2 w2 ++ "(offset".toList) ++ T2))) ∧
    offset_model_coordinates (A ++ (hdrOf p1 w1 ++ ('(' :: ("offset".toList ++
        (w21 ++ '(' :: ("xyz".toList ++ ' ' :: (a1 ++ ' ' :: (b1 ++ ' ' :: (c1 ++ (w41 ++ ')' ::
        (T1 ++ (hdrOf p2 w2 ++ ('(' :: ("offset".toList ++
        (w22 ++ '(' :: ("xyz".toList ++ ' ' :: (a2 ++ ' ' :: (b2 ++ ' ' :: (c2 ++ (w42 ++ ')' ::
        T2)))))))))))))))))))) dx dy dz
      = A ++ (((hdrOf p1 w1 ++ "(offset".toList ++ w21 ++ "(xyz".toList ++ [' ']) ++
          (fmtNum (parseNum a1 + dx) ++ ' ' :: (fmtNum (parseNum b1 + dy) ++
            ' ' :: (fmtNum (parseNum c1 + dz) ++ (w41 ++ [')']))))) ++
          (T1 ++ (((hdrOf p2 w2 ++ "(offset".toList ++ w22 ++ "(xyz".toList ++ [' ']) ++
          (fmtNum (parseNum a2 + dx) ++ ' ' :: (fmtNum (parseNum b2 + dy) ++
            ' ' :: (fmtNum (parseNum c2 + dz) ++ (w42 ++ [')']))))) ++ T2))) ∧
    set_model_position (A ++ (hdrOf p1 w1 ++ ('(' :: ("offset".toList ++
        (w21 ++ '(' :: ("xyz".toList ++ ' ' :: (a1 ++ ' ' :: (b1 ++ ' ' :: (c1 ++ (w41 ++ ')' ::
        (T1 ++ (hdrOf p2 w2 ++ ('(' :: ("offset".toList ++
        (w22 ++ '(' :: ("xyz".toList ++ ' ' :: (a2 ++ ' ' :: (b2 ++ ' ' :: (c2 ++ (w42 ++ ')' ::
        T2)))))))))))))))))))) x y z
      = A ++ (((hdrOf p1 w1 ++ "(offset".toList ++ w21 ++ "(xyz".toList ++ [' ']) ++
          (fmtNum x ++ ' ' :: (fmtNum y ++ ' ' :: (fmtNum z ++ (w41 ++ [')']))))) ++
          (T1 ++ (((hdrOf p2 w2 ++ "(offset".toList ++ w22 ++ "(xyz".toList ++ [' ']) ++
          (fmtNum x ++ ' ' :: (fmtNum y ++ ' ' :: (fmtNum z ++ (w42 ++ [')']))))) ++ T2))) := by
  have hAh2 : noMatchBelow hideInsRepl (A ++ (hdrOf p1 w1 ++ ('(' :: ("offset".toList ++
      (T1 ++ (hdrOf p2 w2 ++ ('(' :: ("offset".toList ++ T2)))))))) A.length := by
    intro k hk
    unfold hideInsRepl
    rw [hAh k hk]
    rfl
  have hT1h2 : noMatchBelow hideInsRepl
      (T1 ++ (hdrOf p2 w2 ++ ('(' :: ("offset".toList ++ T2)))) T1.length := by
    intro k hk
    unfold hideInsRepl
    rw [hT1h k hk]
    rfl
  have hT2h2 : noMatchBelow hideInsRepl T2 T2.length := by
    intro k hk
    unfold hideInsRepl
    rw [hT2h k hk]
    rfl
  have hAd2 : noMatchBelow hideDelRepl (A ++ (hdrOf p1 w1 ++
      ('(' :: ("hide yes)".toList ++ (wh1 ++ '(' :: ("offset".toList ++
      (T1 ++ (hdrOf p2 w2 ++ ('(' :: ("hide yes)".toList ++
        (wh2 ++ '(' :: ("offset".toList ++ T2)))))))))))) A.length := by
    intro k hk
    unfold hideDelRepl
    rw [hAd k hk]
    rfl
  have hT1d2 : noMatchBelow hideDelRepl
      (T1 ++ (hdrOf p2 w2 ++ ('(' :: ("hide yes)".toList ++
        (wh2 ++ '(' :: ("offset".toList ++ T2)))))) T1.length := by
    intro k hk
    unfold hideDelRepl
    rw [hT1d k hk]
    rfl
  have hT2d2 : noMatchBelow hideDelRepl T2 T2.length := by
    intro k hk
    unfold hideDelRepl
    rw [hT2d k hk]
    rfl
  refine ⟨?_, ?_, ?_, ?_⟩
  · exact subAll_two hideInsRepl_lt A hAh2
      (hideInsRepl_eval p1 w1 (T1 ++ (hdrOf p2 w2 ++ ('(' :: ("offset".toList ++ T2))))
        hp11 hp12 hw1 hnl1)
      hT1h2
      (hideInsRepl_eval p2 w2 T2 hp21 hp22 hw2 hnl2)
      hT2h2
  · exact subAll_two hideDelRepl_lt A hAd2
      (hideDelRepl_eval p1 w1 wh1 (T1 ++ (hdrOf p2 w2 ++ ('(' :: ("hide yes)".toList ++
        (wh2 ++ '(' :: ("offset".toList ++ T2)))))) hp11 hp12 hw1 hnl1 hwh1 hnlh1)
      hT1d2
      (hideDelRepl_eval p2 w2 wh2 T2 hp21 hp22 hw2 hnl2 hwh2 hnlh2)
      hT2d2
  · exact subAll_two (offImplRepl_lt dx dy dz) A (noMatch_off_of_tri dx dy dz hAt)
      (offImplRepl_eval dx dy dz p1 w1 w21 a1 b1 c1 w41
        (T1 ++ (hdrOf p2 w2 ++ ('(' :: ("offset".toList ++
          (w22 ++ '(' :: ("xyz".toList ++ ' ' :: (a2 ++ ' ' :: (b2 ++ ' ' :: (c2 ++ (w42 ++ ')' ::
          T2))))))))))
        hp11 hp12 hw1 hnl1 hw21 hnl21 ha1 hb1 hc1 hw41)
      (noMatch_off_of_tri dx dy dz hT1t)
      (offImplRepl_eval dx dy dz p2 w2 w22 a2 b2 c2 w42 T2
        hp21 hp22 hw2 hnl2 hw22 hnl22 ha2 hb2 hc2 hw42)
      (noMatch_off_of_tri dx dy dz hT2t)
  · exact subAll_two (posImplRepl_lt x y z) A (noMatch_pos_of_tri x y z hAt)
      (posImplRepl_eval x y z p1 w1 w21 a1 b1 c1 w41
        (T1 ++ (hdrOf p2 w2 ++ ('(' :: ("offset".toList ++
          (w22 ++ '(' :: ("xyz".toList ++ ' ' :: (a2 ++ ' ' :: (b2 ++ ' ' :: (c2 ++ (w42 ++ ')' ::
          T2))))))))))
        hp11 hp12 hw1 hnl1 hw21 hnl21 ha1 hb1 hc1 hw41)
      (noMatch_pos_of_tri x y z hT1t)
      (posImplRepl_eval x y z p2 w2 w22 a2 b2 c2 w42 T2
        hp21 hp22 hw2 hnl2 hw22 hnl22 ha2 hb2 hc2 hw42)
      (noMatch_pos_of_tri x y z hT2t)

/-- Witness for `c2_theorem`: both model sites of a concrete two-site text
gain the hidden marker. -/
theorem c2_witness :
    add_hide_to_model ("z".toList ++ (hdrOf "a".toList "\n".toList ++
        ('(' :: ("offset".toList ++
        ("x".toList ++ (hdrOf "b".toList "\n".toList ++
        ('(' :: ("offset".toList ++ "y".toList))))))))
      = "z".toList ++ ((hdrOf "a".toList "\n".toList ++ (hideMarkIns ++ "(offset".toList)) ++
          ("x".toList ++ ((hdrOf "b".toList "\n".toList ++
            (hideMarkIns ++ "(offset".toList)) ++ "y".toList))) := by
  have h := c2_theorem "z".toList "x".toList "y".toList "a".toList "\n".toList "b".toList
    "\n".toList "\n".toList "\n".toList "\n".toList "\n".toList "1".toList "2".toList
    "3".toList "4".toList "5".toList "6".toList [] [] (1/2) 0 0 7 8 9
    (by decide) (by decide) (by decide) (by decide) (by decide) (by decide) (by decide)
    (by decide) (by decide) (by decide) (by decide) (by decide) (by decide) (by decide)
    (by decide) (by decide) (by decide) (by decide) (by decide) (by decide) (by decide)
    (by decide) (by decide) (by decide) (by decide) (by decide) (by decide) (by decide)
    (by decide) (by decide) (by decide) (by decide) (by decide)
  exact h.1

/-! ## C5 -/

/-- C5: `show(hide(x)) = x` for subjects with no pre-existing hidden
marker.  Subjects are, per the spec, text spans starting with a model field
header; the trailing text `T` is arbitrary as long as no further
model-header match starts inside it. -/
theorem c5_theorem (path w1 T : List Char)
    (hp1 : path ≠ []) (hp2 : ∀ ch ∈ path, ch ≠ '"')
    (hw1 : ∀ ch ∈ w1, isPySpace ch = true) (hnl : '\n' ∈ w1)
    (hnomark : containsSub "(hide yes)".toList
      (hdrOf path w1 ++ ('(' :: ("offset".toList ++ T))) = false)
    (hTins : noMatchBelow matchHideIns T T.length)
    (hTdel : noMatchBelow matchHideDel T T.length) :
    remove_hide_from_model (add_hide_to_model
        (hdrOf path w1 ++ ('(' :: ("offset".toList ++ T))))
      = hdrOf path w1 ++ ('(' :: ("offset".toList ++ T)) := by
  have hTins2 : noMatchBelow hideInsRepl T T.length := by
    intro k hk
    unfold hideInsRepl
    rw [hTins k hk]
    rfl
  have hTdel2 : noMatchBelow hideDelRepl T T.length := by
    intro k hk
    unfold hideDelRepl
    rw [hTdel k hk]
    rfl
  have h1 : add_hide_to_model (hdrOf path w1 ++ ('(' :: ("offset".toList ++ T)))
      = (hdrOf path w1 ++ (hideMarkIns ++ "(offset".toList)) ++ T := by
    have := subAll_one hideInsRepl_lt []
      (by intro k hk; exact absurd hk (Nat.not_lt_zero k))
      (hideInsRepl_eval path w1 T hp1 hp2 hw1 hnl) hTins2
    simpa [add_hide_to_model] using this
  rw [h1]
  have hshape : (hdrOf path w1 ++ (hideMarkIns ++ "(offset".toList)) ++ T
      = hdrOf path w1 ++ ('(' :: ("hide yes)".toList ++
          ("\n\t\t\t".toList ++ '(' :: ("offset".toList ++ T)))) := by
    simp [hideMarkIns, List.append_assoc]
  rw [hshape]
  have h2 := subAll_one hideDelRepl_lt []
    (by intro k hk; exact absurd hk (Nat.not_lt_zero k))
    (hideDelRepl_eval path w1 "\n\t\t\t".toList T hp1 hp2 hw1 hnl (by decide) (by decide))
    hTdel2
  simp only [List.nil_append] at h2
  rw [show remove_hide_from_model (hdrOf path w1 ++ ('(' :: ("hide yes)".toList ++
      ("\n\t\t\t".toList ++ '(' :: ("offset".toList ++ T)))))
    = subAll hideDelRepl (hdrOf path w1 ++ ('(' :: ("hide yes)".toList ++
      ("\n\t\t\t".toList ++ '(' :: ("offset".toList ++ T))))) from rfl]
  rw [h2]
  simp

/-- Witness for `c5_theorem` at a concrete subject. -/
theorem c5_witness :
    remove_hide_from_model (add_hide_to_model
        (hdrOf "m.stp".toList "\n\t".toList ++
          ('(' :: ("offset".toList ++ "\n(xyz 1.5 -2.0 0.0)))".toList))))
      = hdrOf "m.stp".toList "\n\t".toList ++
          ('(' :: ("offset".toList ++ "\n(xyz 1.5 -2.0 0.0)))".toList)) :=
  c5_theorem "m.stp".toList "\n\t".toList "\n(xyz 1.5 -2.0 0.0)))".toList
    (by decide) (by decide) (by decide) (by decide) (by decide) (by decide) (by decide)

/-! ## C3 -/

/-- C3, counterexample to the claim as stated: a subject whose coordinates
are integer-formatted is changed by a zero offset (`1 2 3` becomes
`1.0 2.0 3.0`): the rewrite re-renders the parsed floats. -/
theorem c3_counterexample :
    offset_model_coordinates subjInt 0 0 0 ≠ subjInt := by
  decide

/-- C3 (amended): a zero offset leaves the subject unchanged PROVIDED each
coordinate token is already in the canonical rendering of its parsed value
(`fmtNum (parseNum a) = a`) and the tokens are separated by single spaces;
otherwise the triple is re-rendered canonically (see
`c3_counterexample`). -/
theorem c3_theorem (path w1 w2 a b c w4 Z : List Char)
    (hp1 : path ≠ []) (hp2 : ∀ ch ∈ path, ch ≠ '"')
    (hw1 : ∀ ch ∈ w1, isPySpace ch = true) (hnl : '\n' ∈ w1)
    (hw2 : ∀ ch ∈ w2, isPySpace ch = true) (hnl2 : '\n' ∈ w2)
    (ha : numTokAll a) (hb : numTokAll b) (hc : numTokAll c)
    (hw4 : ∀ ch ∈ w4, isPySpace ch = true)
    (hca : fmtNum (parseNum a) = a) (hcb : fmtNum (parseNum b) = b)
    (hcc : fmtNum (parseNum c) = c)
    (hZ : noMatchBelow matchTripleImpl Z Z.length) :
    offset_model_coordinates (hdrOf path w1 ++
        ('(' :: ("offset".toList ++
          (w2 ++ '(' :: ("xyz".toList ++ ' ' ::
            (a ++ ' ' :: (b ++ ' ' :: (c ++ (w4 ++ ')' :: Z))))))))) 0 0 0
      = hdrOf path w1 ++
        ('(' :: ("offset".toList ++
          (w2 ++ '(' :: ("xyz".toList ++ ' ' ::
            (a ++ ' ' :: (b ++ ' ' :: (c ++ (w4 ++ ')' :: Z)))))))) := by
  have h1 := subAll_one (offImplRepl_lt 0 0 0) []
    (by intro k hk; exact absurd hk (Nat.not_lt_zero k))
    (offImplRepl_eval 0 0 0 path w1 w2 a b c w4 Z hp1 hp2 hw1 hnl hw2 hnl2 ha hb hc hw4)
    (noMatch_off_of_tri 0 0 0 hZ)
  simp only [List.nil_append] at h1
  rw [show offset_model_coordinates (hdrOf path w1 ++
        ('(' :: ("offset".toList ++
          (w2 ++ '(' :: ("xyz".toList ++ ' ' ::
            (a ++ ' ' :: (b ++ ' ' :: (c ++ (w4 ++ ')' :: Z))))))))) 0 0 0
      = subAll (offImplRepl 0 0 0) (hdrOf path w1 ++
        ('(' :: ("offset".toList ++
          (w2 ++ '(' :: ("xyz".toList ++ ' ' ::
            (a ++ ' ' :: (b ++ ' ' :: (c ++ (w4 ++ ')' :: Z))))))))) from rfl]
  rw [h1]
  rw [add_zero, add_zero, add_zero, hca, hcb, hcc]
  simp [List.append_assoc]

/-- Witness for `c3_theorem` at the canonical subject `subjCanon`. -/
theorem c3_witness :
    offset_model_coordinates (hdrOf "m".toList "\n\t".toList ++
        ('(' :: ("offset".toList ++
          ("\n\t\t".toList ++ '(' :: ("xyz".toList ++ ' ' ::
            ("1.5".toList ++ ' ' :: ("-2.0".toList ++ ' ' ::
              ("0.0".toList ++ ([] ++ ')' :: "\n)".toList))))))))) 0 0 0
      = hdrOf "m".toList "\n\t".toList ++
        ('(' :: ("offset".toList ++
          ("\n\t\t".toList ++ '(' :: ("xyz".toList ++ ' ' ::
            ("1.5".toList ++ ' ' :: ("-2.0".toList ++ ' ' ::
              ("0.0".toList ++ ([] ++ ')' :: "\n)".toList)))))))) :=
  c3_theorem "m".toList "\n\t".toList "\n\t\t".toList "1.5".toList "-2.0".toList
    "0.0".toList [] "\n)".toList
    (by decide) (by decide) (by decide) (by decide) (by decide) (by decide) (by decide)
    (by decide) (by decide) (by decide) (by decide) (by decide) (by decide) (by decide)

/-! ## C6 -/

/-- C6, counterexample to the claim as stated: with `dz = 10^16` the offset
rewrites the third coordinate in exponent notation (`1e+16`), which the
coordinate pattern (`[+-]?\d+\.?\d*`) no longer matches, so the subsequent
absolute set-position is a silent no-op on the offset output while it does
rewrite the original subject. -/
theorem c6_counterexample :
    set_model_position (offset_model_coordinates subjCanon 0 0 (10 ^ 16)) 5 5 5
      ≠ set_model_position subjCanon 5 5 5 := by
  decide

/-- C6 (amended): `position(offset(subject, dx, dy, dz), x0, y0, z0) =
position(subject, x0, y0, z0)` holds PROVIDED each coordinate token
rewritten by the offset is still in the plain `[+-]?\d+\.?\d*` shape (in
particular not in exponent notation, see `c6_counterexample`). -/
theorem c6_theorem (dx dy dz x y z : ℚ) (path w1 w2 a b c w4 Z : List Char)
    (hp1 : path ≠ []) (hp2 : ∀ ch ∈ path, ch ≠ '"')
    (hw1 : ∀ ch ∈ w1, isPySpace ch = true) (hnl : '\n' ∈ w1)
    (hw2 : ∀ ch ∈ w2, isPySpace ch = true) (hnl2 : '\n' ∈ w2)
    (ha : numTokAll a) (hb : numTokAll b) (hc : numTokAll c)
    (hw4 : ∀ ch ∈ w4, isPySpace ch = true)
    (ha2 : numTokAll (fmtNum (parseNum a + dx)))
    (hb2 : numTokAll (fmtNum (parseNum b + dy)))
    (hc2 : numTokAll (fmtNum (parseNum c + dz)))
    (hZ : noMatchBelow matchTripleImpl Z Z.length) :
    set_model_position (offset_model_coordinates (hdrOf path w1 ++
        ('(' :: ("offset".toList ++
          (w2 ++ '(' :: ("xyz".toList ++ ' ' ::
            (a ++ ' ' :: (b ++ ' ' :: (c ++ (w4 ++ ')' :: Z))))))))) dx dy dz) x y z
      = set_model_position (hdrOf path w1 ++
        ('(' :: ("offset".toList ++
          (w2 ++ '(' :: ("xyz".toList ++ ' ' ::
            (a ++ ' ' :: (b ++ ' ' :: (c ++ (w4 ++ ')' :: Z))))))))) x y z := by
  have hnil : noMatchBelow (offImplRepl dx dy dz)
      (([] : List Char) ++ (hdrOf path w1 ++
        ('(' :: ("offset".toList ++
          (w2 ++ '(' :: ("xyz".toList ++ ' ' ::
            (a ++ ' ' :: (b ++ ' ' :: (c ++ (w4 ++ ')' :: Z)))))))))) 0 := by
    intro k hk
    exact absurd hk (Nat.not_lt_zero k)
  have h1 := subAll_one (offImplRepl_lt dx dy dz) [] hnil
    (offImplRepl_eval dx dy dz path w1 w2 a b c w4 Z hp1 hp2 hw1 hnl hw2 hnl2 ha hb hc hw4)
    (noMatch_off_of_tri dx dy dz hZ)
  simp only [List.nil_append] at h1
  rw [show offset_model_coordinates (hdrOf path w1 ++
        ('(' :: ("offset".toList ++
          (w2 ++ '(' :: ("xyz".toList ++ ' ' ::
            (a ++ ' ' :: (b ++ ' ' :: (c ++ (w4 ++ ')' :: Z))))))))) dx dy dz
      = subAll (offImplRepl dx dy dz) (hdrOf path w1 ++
        ('(' :: ("offset".toList ++
          (w2 ++ '(' :: ("xyz".toList ++ ' ' ::
            (a ++ ' ' :: (b ++ ' ' :: (c ++ (w4 ++ ')' :: Z))))))))) from rfl]
  rw [h1]
  have hshape : ((hdrOf path w1 ++ "(offset".toList ++ w2 ++ "(xyz".toList ++ [' ']) ++
          (fmtNum (parseNum a + dx) ++
            ' ' :: (fmtNum (parseNum b + dy) ++
            ' ' :: (fmtNum (parseNum c + dz) ++ (w4 ++ [')']))))) ++ Z
      = hdrOf path w1 ++
        ('(' :: ("offset".toList ++
          (w2 ++ '(' :: ("xyz".toList ++ ' ' ::
            (fmtNum (parseNum a + dx) ++ ' ' :: (fmtNum (parseNum b + dy) ++ ' ' ::
              (fmtNum (parseNum c + dz) ++ (w4 ++ ')' :: Z)))))))) := by
    simp [List.append_assoc]
  rw [hshape]
  have h2 := subAll_one (posImplRepl_lt x y z) [] (by intro k hk; exact absurd hk (Nat.not_lt_zero k))
    (posImplRepl_eval x y z path w1 w2 (fmtNum (parseNum a + dx)) (fmtNum (parseNum b + dy))
      (fmtNum (parseNum c + dz)) w4 Z hp1 hp2 hw1 hnl hw2 hnl2 ha2 hb2 hc2 hw4)
    (noMatch_pos_of_tri x y z hZ)
  have h3 := subAll_one (posImplRepl_lt x y z) [] (by intro k hk; exact absurd hk (Nat.not_lt_zero k))
    (posImplRepl_eval x y z path w1 w2 a b c w4 Z hp1 hp2 hw1 hnl hw2 hnl2 ha hb hc hw4)
    (noMatch_pos_of_tri x y z hZ)
  simp only [List.nil_append] at h2 h3
  rw [show set_model_position (hdrOf path w1 ++
        ('(' :: ("offset".toList ++
          (w2 ++ '(' :: ("xyz".toList ++ ' ' ::
            (fmtNum (parseNum a + dx) ++ ' ' :: (fmtNum (parseNum b + dy) ++ ' ' ::
              (fmtNum (parseNum c + dz) ++ (w4 ++ ')' :: Z))))))))) x y z
      = subAll (posImplRepl x y z) (hdrOf path w1 ++
        ('(' :: ("offset".toList ++
          (w2 ++ '(' :: ("xyz".toList ++ ' ' ::
            (fmtNum (parseNum a + dx) ++ ' ' :: (fmtNum (parseNum b + dy) ++ ' ' ::
              (fmtNum (parseNum c + dz) ++ (w4 ++ ')' :: Z))))))))) from rfl]
  rw [show set_model_position (hdrOf path w1 ++
        ('(' :: ("offset".toList ++
          (w2 ++ '(' :: ("xyz".toList ++ ' ' ::
            (a ++ ' ' :: (b ++ ' ' :: (c ++ (w4 ++ ')' :: Z))))))))) x y z
      = subAll (posImplRepl x y z) (hdrOf path w1 ++
        ('(' :: ("offset".toList ++
          (w2 ++ '(' :: ("xyz".toList ++ ' ' ::
            (a ++ ' ' :: (b ++ ' ' :: (c ++ (w4 ++ ')' :: Z))))))))) from rfl]
  rw [h2, h3]

/-- Witness for `c6_theorem` with deltas `(1/2, 1/2, 0)` and absolutes
`(1, 2, 3)` on the canonical triple `1.5 -2.0 0.0`. -/
theorem c6_witness :
    set_model_position (offset_model_coordinates (hdrOf "m".toList "\n\t".toList ++
        ('(' :: ("offset".toList ++
          ("\n\t\t".toList ++ '(' :: ("xyz".toList ++ ' ' ::
            ("1.5".toList ++ ' ' :: ("-2.0".toList ++ ' ' ::
              ("0.0".toList ++ ([] ++ ')' :: "\n)".toList))))))))) (1/2) (1/2) 0) 1 2 3
      = set_model_position (hdrOf "m".toList "\n\t".toList ++
        ('(' :: ("offset".toList ++
          ("\n\t\t".toList ++ '(' :: ("xyz".toList ++ ' ' ::
            ("1.5".toList ++ ' ' :: ("-2.0".toList ++ ' ' ::
              ("0.0".toList ++ ([] ++ ')' :: "\n)".toList))))))))) 1 2 3 :=
  c6_theorem (1/2) (1/2) 0 1 2 3 "m".toList "\n\t".toList "\n\t\t".toList
    "1.5".toList "-2.0".toList "0.0".toList [] "\n)".toList
    (by decide) (by decide) (by decide) (by decide) (by decide) (by decide) (by decide)
    (by decide) (by decide) (by decide) (by decide) (by decide) (by decide) (by decide)

/-! ## C9: helper lemmas for the index-targeted path -/

theorem subFirst_match_head2 {m : List Char → Option (List Char × List Char)}
    {cs rep rest : List Char} (hne : cs ≠ []) (h : m cs = some (rep, rest)) :
    subFirst m cs = rep ++ rest := by
  cases cs with
  | nil => exact absurd rfl hne
  | cons c tl => exact subFirst_match_head h

theorem noMatch_offIdx_of_triIdx {cs : List Char} {n : Nat} (dx dy dz : ℚ)
    (h : noMatchBelow matchTripleIdx cs n) : noMatchBelow (offIdxRepl dx dy dz) cs n := by
  intro k hk
  unfold offIdxRepl
  rw [h k hk]
  rfl

theorem noMatch_posIdx_of_triIdx {cs : List Char} {n : Nat} (x y z : ℚ)
    (h : noMatchBelow matchTripleIdx cs n) : noMatchBelow (posIdxRepl x y z) cs n := by
  intro k hk
  unfold posIdxRepl
  rw [h k hk]
  rfl

/-- Evaluation of the index-targeted coordinate pattern on a structured
model body: its trailing group is `\s*\)\s*\)` — TWO closing parens, unlike
the implicit pattern's single one. -/
theorem matchTripleIdx_eval (w2 a b c w4 w5 w6 : List Char)
    (hw2 : ∀ ch ∈ w2, isPySpace ch = true) (hnl2 : '\n' ∈ w2)
    (ha : numTokAll a) (hb : numTokAll b) (hc : numTokAll c)
    (hw4 : ∀ ch ∈ w4, isPySpace ch = true) (hw5 : ∀ ch ∈ w5, isPySpace ch = true) :
    matchTripleIdx ('(' :: ("offset".toList ++ modelTail w2 a b c w4 w5 w6))
      = some ("(offset".toList ++ w2 ++ "(xyz".toList ++ [' '], (a, b, c),
              w4 ++ ')' :: (w5 ++ [')']), w6 ++ [')']) := by
  unfold matchTripleIdx
  rw [matchParenLit_offset (modelTail w2 a b c w4 w5 w6)]
  dsimp only
  rw [show modelTail w2 a b c w4 w5 w6
      = w2 ++ '(' :: ("xyz".toList ++ ' ' :: (a ++ ' ' :: (b ++ ' ' ::
          (c ++ (w4 ++ ')' :: (w5 ++ ')' :: (w6 ++ [')'])))))))
    from by simp [modelTail]]
  rw [matchWsNl_eval w2 '(' ("xyz".toList ++ ' ' :: (a ++ ' ' :: (b ++ ' ' ::
        (c ++ (w4 ++ ')' :: (w5 ++ ')' :: (w6 ++ [')']))))))) hw2 hnl2 ps_lp]
  dsimp only
  rw [show matchParenLit "xyz".toList ('(' :: ("xyz".toList ++ ' ' :: (a ++ ' ' :: (b ++ ' ' ::
        (c ++ (w4 ++ ')' :: (w5 ++ ')' :: (w6 ++ [')']))))))))
      = some ("(xyz".toList, ' ' :: (a ++ ' ' :: (b ++ ' ' ::
        (c ++ (w4 ++ ')' :: (w5 ++ ')' :: (w6 ++ [')']))))))) from rfl]
  dsimp only
  rw [matchWsPlus_sp (' ' :: (b ++ ' ' :: (c ++ (w4 ++ ')' :: (w5 ++ ')' :: (w6 ++ [')'])))))) ha]
  dsimp only
  rw [numTok_extend ha ' ' (b ++ ' ' :: (c ++ (w4 ++ ')' :: (w5 ++ ')' :: (w6 ++ [')'])))))
        (by decide) (by decide)]
  dsimp only
  rw [matchWsPlus_sp (' ' :: (c ++ (w4 ++ ')' :: (w5 ++ ')' :: (w6 ++ [')']))))) hb]
  dsimp only
  rw [numTok_extend hb ' ' (c ++ (w4 ++ ')' :: (w5 ++ ')' :: (w6 ++ [')'])))) (by decide) (by decide)]
  dsimp only
  rw [matchWsPlus_sp (w4 ++ ')' :: (w5 ++ ')' :: (w6 ++ [')']))) hc]
  dsimp only
  rw [numTok_extend_run hc hw4 (by decide) (by decide)]
  dsimp only
  rw [takeWhile_app_cons ')' (w5 ++ ')' :: (w6 ++ [')'])) hw4 ps_rp,
      dropWhile_app_cons ')' (w5 ++ ')' :: (w6 ++ [')'])) hw4 ps_rp]
  simp [takeWhile_app_cons ')' (w6 ++ [')']) hw5 ps_rp,
        dropWhile_app_cons ')' (w6 ++ [')']) hw5 ps_rp]

theorem offIdxRepl_evalM (dx dy dz : ℚ) (w2 a b c w4 w5 w6 : List Char)
    (hw2 : ∀ ch ∈ w2, isPySpace ch = true) (hnl2 : '\n' ∈ w2)
    (ha : numTokAll a) (hb : numTokAll b) (hc : numTokAll c)
    (hw4 : ∀ ch ∈ w4, isPySpace ch = true) (hw5 : ∀ ch ∈ w5, isPySpace ch = true) :
    offIdxRepl dx dy dz ('(' :: ("offset".toList ++ modelTail w2 a b c w4 w5 w6))
      = some (("(offset".toList ++ w2 ++ "(xyz".toList ++ [' ']) ++
          (fmtNum (parseNum a + dx) ++ ' ' :: (fmtNum (parseNum b + dy) ++ ' ' ::
            (fmtNum (parseNum c + dz) ++ (w4 ++ ')' :: (w5 ++ [')']))))),
          w6 ++ [')']) := by
  unfold offIdxRepl
  rw [matchTripleIdx_eval w2 a b c w4 w5 w6 hw2 hnl2 ha hb hc hw4 hw5]
  simp

theorem posIdxRepl_evalM (x y z : ℚ) (w2 a b c w4 w5 w6 : List Char)
    (hw2 : ∀ ch ∈ w2, isPySpace ch = true) (hnl2 : '\n' ∈ w2)
    (ha : numTokAll a) (hb : numTokAll b) (hc : numTokAll c)
    (hw4 : ∀ ch ∈ w4, isPySpace ch = true) (hw5 : ∀ ch ∈ w5, isPySpace ch = true) :
    posIdxRepl x y z ('(' :: ("offset".toList ++ modelTail w2 a b c w4 w5 w6))
      = some (("(offset".toList ++ w2 ++ "(xyz".toList ++ [' ']) ++
          (fmtNum x ++ ' ' :: (fmtNum y ++ ' ' :: (fmtNum z ++ (w4 ++ ')' :: (w5 ++ [')']))))),
          w6 ++ [')']) := by
  unfold posIdxRepl
  rw [matchTripleIdx_eval w2 a b c w4 w5 w6 hw2 hnl2 ha hb hc hw4 hw5]
  simp

/-- Reduction of `modify_specific_model_by_index` at index 0 on a record
enumerating exactly one model. -/
theorem modify_single (R M : List Char) (s e : Nat) (op : ModelOp)
    (hEnum : enumModels R = some [(s, e, M)]) :
    modify_specific_model_by_index R 0 op = some (
      match op with
      | ModelOp.hideOp =>
        if containsSub "(hide yes)".toList M then R
        else R.take s ++ subFirst hideIdxRepl M ++ R.drop e
      | ModelOp.showOp =>
        if containsSub "(hide yes)".toList M then
          R.take s ++ strReplace "\n\t\t\t\n".toList "\n\t\t\t".toList
            (subFirst showIdxRepl M) ++ R.drop e
        else R
      | ModelOp.offsetOp dx dy dz =>
        if subAll (offIdxRepl dx dy dz) M = M then R
        else R.take s ++ subAll (offIdxRepl dx dy dz) M ++ R.drop e
      | ModelOp.positionOp x y z =>
        if subAll (posIdxRepl x y z) M = M then R
        else R.take s ++ subAll (posIdxRepl x y z) M ++ R.drop e) := by
  unfold modify_specific_model_by_index
  rw [hEnum]
  cases op <;> simp [List.getD, apply_ite Option.some]

/-- C9, counterexample to the claim as stated: `r0` contains exactly one
model, but its offset block is separated from the model header by an `(at
…)` field, so the implicit hide pattern does not match (no-op) while the
index-0 hide — whose insertion pattern needs only the header — does insert
the marker: the two paths disagree. -/
theorem c9_counterexample :
    (enumModels r0).map List.length = some 1 ∧
    add_hide_to_model r0 = r0 ∧
    modify_specific_model_by_index r0 0 ModelOp.hideOp ≠ some (add_hide_to_model r0) := by
  refine ⟨by decide, by decide, by decide⟩

/-- C9 (amended): on a record with exactly one model whose header is
immediately followed by its offset block and which carries no hidden
marker, the implicit-target path and the index-0-targeted path of each
operation (hide, show, offset, position) produce the same resulting record
text.  On records where the header and the offset block are separated by
another field the two paths disagree (`c9_counterexample`). -/
theorem c9_theorem (A C path w1 w2 a b c w4 w5 w6 : List Char) (dx dy dz x y z : ℚ)
    (hp1 : path ≠ []) (hp2 : ∀ ch ∈ path, ch ≠ '"')
    (hw1 : ∀ ch ∈ w1, isPySpace ch = true) (hnl : '\n' ∈ w1)
    (hw2 : ∀ ch ∈ w2, isPySpace ch = true) (hnl2 : '\n' ∈ w2)
    (ha : numTokAll a) (hb : numTokAll b) (hc : numTokAll c)
    (hw4 : ∀ ch ∈ w4, isPySpace ch = true) (hw5 : ∀ ch ∈ w5, isPySpace ch = true)
    (hEnum : enumModels (A ++ (mkModel path w1 [] w2 a b c w4 w5 w6 ++ C))
      = some [(A.length, A.length + (mkModel path w1 [] w2 a b c w4 w5 w6).length,
               mkModel path w1 [] w2 a b c w4 w5 w6)])
    (hNoMark : containsSub "(hide yes)".toList (mkModel path w1 [] w2 a b c w4 w5 w6) = false)
    (hAins : noMatchBelow matchHideIns
      (A ++ (mkModel path w1 [] w2 a b c w4 w5 w6 ++ C)) A.length)
    (hTins : noMatchBelow matchHideIns (modelTail w2 a b c w4 w5 w6 ++ C)
      (modelTail w2 a b c w4 w5 w6 ++ C).length)
    (hDel : noMatchBelow matchHideDel (A ++ (mkModel path w1 [] w2 a b c w4 w5 w6 ++ C))
      (A ++ (mkModel path w1 [] w2 a b c w4 w5 w6 ++ C)).length)
    (hAtri : noMatchBelow matchTripleImpl
      (A ++ (mkModel path w1 [] w2 a b c w4 w5 w6 ++ C)) A.length)
    (hZC : noMatchBelow matchTripleImpl (w5 ++ ')' :: (w6 ++ ')' :: C))
      (w5 ++ ')' :: (w6 ++ ')' :: C)).length)
    (hMidx : noMatchBelow matchTripleIdx (mkModel path w1 [] w2 a b c w4 w5 w6)
      (hdrOf path w1).length)
    (hW6 : noMatchBelow matchTripleIdx (w6 ++ [')']) (w6 ++ [')']).length) :
    (modify_specific_model_by_index
        (A ++ (mkModel path w1 [] w2 a b c w4 w5 w6 ++ C)) 0 ModelOp.hideOp
      = some (add_hide_to_model (A ++ (mkModel path w1 [] w2 a b c w4 w5 w6 ++ C)))) ∧
    (modify_specific_model_by_index
        (A ++ (mkModel path w1 [] w2 a b c w4 w5 w6 ++ C)) 0 ModelOp.showOp
      = some (remove_hide_from_model (A ++ (mkModel path w1 [] w2 a b c w4 w5 w6 ++ C)))) ∧
    (modify_specific_model_by_index
        (A ++ (mkModel path w1 [] w2 a b c w4 w5 w6 ++ C)) 0 (ModelOp.offsetOp dx dy dz)
      = some (offset_model_coordinates
          (A ++ (mkModel path w1 [] w2 a b c w4 w5 w6 ++ C)) dx dy dz)) ∧
    (modify_specific_model_by_index
        (A ++ (mkModel path w1 [] w2 a b c w4 w5 w6 ++ C)) 0 (ModelOp.positionOp x y z)
      = some (set_model_position (A ++ (mkModel path w1 [] w2 a b c w4 w5 w6 ++ C)) x y z)) := by
  have hMform : mkModel path w1 [] w2 a b c w4 w5 w6
      = hdrOf path w1 ++ ('(' :: ("offset".toList ++ modelTail w2 a b c w4 w5 w6)) := by
    simp [mkModel]
  have hMC : mkModel path w1 [] w2 a b c w4 w5 w6 ++ C
      = hdrOf path w1 ++ ('(' :: ("offset".toList ++ (modelTail w2 a b c w4 w5 w6 ++ C))) := by
    simp [mkModel, List.append_assoc]
  have hMCtri : mkModel path w1 [] w2 a b c w4 w5 w6 ++ C
      = hdrOf path w1 ++ ('(' :: ("offset".toList ++ (w2 ++ '(' :: ("xyz".toList ++ ' ' ::
          (a ++ ' ' :: (b ++ ' ' :: (c ++ (w4 ++ ')' ::
            (w5 ++ ')' :: (w6 ++ ')' :: C)))))))))) := by
    simp [mkModel, modelTail, List.append_assoc]
  have htake : (A ++ (mkModel path w1 [] w2 a b c w4 w5 w6 ++ C)).take A.length = A :=
    List.take_left A (mkModel path w1 [] w2 a b c w4 w5 w6 ++ C)
  have hdrop : (A ++ (mkModel path w1 [] w2 a b c w4 w5 w6 ++ C)).drop
      (A.length + (mkModel path w1 [] w2 a b c w4 w5 w6).length) = C := by
    rw [← List.append_assoc, ← List.length_append]
    exact List.drop_left _ _
  refine ⟨?_, ?_, ?_, ?_⟩
  · -- hide
    rw [modify_single _ _ _ _ ModelOp.hideOp hEnum]
    dsimp only
    rw [if_neg (by simpa using hNoMark)]
    rw [htake, hdrop]
    have hsubF : subFirst hideIdxRepl (mkModel path w1 [] w2 a b c w4 w5 w6)
        = (hdrOf path w1 ++ hideMarkIns) ++
            ('(' :: ("offset".toList ++ modelTail w2 a b c w4 w5 w6)) := by
      rw [hMform]
      refine subFirst_match_head2 (by simp [hdrOf]) ?_
      unfold hideIdxRepl
      rw [matchHdrW_eval path w1 '(' ("offset".toList ++ modelTail w2 a b c w4 w5 w6)
            hp1 hp2 hw1 hnl ps_lp]
      rfl
    rw [hsubF]
    have hAins2 : noMatchBelow hideInsRepl (A ++ (hdrOf path w1 ++
        ('(' :: ("offset".toList ++ (modelTail w2 a b c w4 w5 w6 ++ C))))) A.length := by
      rw [← hMC]
      intro k hk
      unfold hideInsRepl
      rw [hAins k hk]
      rfl
    have hTins2 : noMatchBelow hideInsRepl (modelTail w2 a b c w4 w5 w6 ++ C)
        (modelTail w2 a b c w4 w5 w6 ++ C).length := by
      intro k hk
      unfold hideInsRepl
      rw [hTins k hk]
      rfl
    have hAdd := subAll_one hideInsRepl_lt A hAins2
      (hideInsRepl_eval path w1 (modelTail w2 a b c w4 w5 w6 ++ C) hp1 hp2 hw1 hnl) hTins2
    rw [show add_hide_to_model (A ++ (mkModel path w1 [] w2 a b c w4 w5 w6 ++ C))
        = subAll hideInsRepl (A ++ (mkModel path w1 [] w2 a b c w4 w5 w6 ++ C)) from rfl]
    rw [hMC, hAdd]
    simp [List.append_assoc]
  · -- show
    rw [modify_single _ _ _ _ ModelOp.showOp hEnum]
    dsimp only
    rw [if_neg (by simpa using hNoMark)]
    have hDel2 : noMatchBelow hideDelRepl
        (A ++ (mkModel path w1 [] w2 a b c w4 w5 w6 ++ C))
        (A ++ (mkModel path w1 [] w2 a b c w4 w5 w6 ++ C)).length := by
      intro k hk
      unfold hideDelRepl
      rw [hDel k hk]
      rfl
    rw [show remove_hide_from_model (A ++ (mkModel path w1 [] w2 a b c w4 w5 w6 ++ C))
        = subAll hideDelRepl (A ++ (mkModel path w1 [] w2 a b c w4 w5 w6 ++ C)) from rfl]
    rw [subAll_nomatch hDel2]
  · -- offset
    rw [modify_single _ _ _ _ (ModelOp.offsetOp dx dy dz) hEnum]
    dsimp only
    have hMidx2 : noMatchBelow (offIdxRepl dx dy dz) (hdrOf path w1 ++
        ('(' :: ("offset".toList ++ modelTail w2 a b c w4 w5 w6))) (hdrOf path w1).length := by
      rw [← hMform]
      exact noMatch_offIdx_of_triIdx dx dy dz hMidx
    have hupd : subAll (offIdxRepl dx dy dz) (mkModel path w1 [] w2 a b c w4 w5 w6)
        = hdrOf path w1 ++ ((("(offset".toList ++ w2 ++ "(xyz".toList ++ [' ']) ++
            (fmtNum (parseNum a + dx) ++ ' ' :: (fmtNum (parseNum b + dy) ++ ' ' ::
              (fmtNum (parseNum c + dz) ++ (w4 ++ ')' :: (w5 ++ [')'])))))) ++
            (w6 ++ [')'])) := by
      rw [hMform]
      exact subAll_one (offIdxRepl_lt dx dy dz) (hdrOf path w1) hMidx2
        (offIdxRepl_evalM dx dy dz w2 a b c w4 w5 w6 hw2 hnl2 ha hb hc hw4 hw5)
        (noMatch_offIdx_of_triIdx dx dy dz hW6)
    have key : (if subAll (offIdxRepl dx dy dz) (mkModel path w1 [] w2 a b c w4 w5 w6)
          = mkModel path w1 [] w2 a b c w4 w5 w6
        then A ++ (mkModel path w1 [] w2 a b c w4 w5 w6 ++ C)
        else (A ++ (mkModel path w1 [] w2 a b c w4 w5 w6 ++ C)).take A.length ++
          subAll (offIdxRepl dx dy dz) (mkModel path w1 [] w2 a b c w4 w5 w6) ++
            (A ++ (mkModel path w1 [] w2 a b c w4 w5 w6 ++ C)).drop
              (A.length + (mkModel path w1 [] w2 a b c w4 w5 w6).length))
        = A ++ (subAll (offIdxRepl dx dy dz) (mkModel path w1 [] w2 a b c w4 w5 w6) ++ C) := by
      by_cases h0 : subAll (offIdxRepl dx dy dz) (mkModel path w1 [] w2 a b c w4 w5 w6)
          = mkModel path w1 [] w2 a b c w4 w5 w6
      · rw [if_pos h0, h0]
      · rw [if_neg h0, htake, hdrop, List.append_assoc]
    rw [key, hupd]
    have hAtri2 : noMatchBelow (offImplRepl dx dy dz) (A ++ (hdrOf path w1 ++
        ('(' :: ("offset".toList ++ (w2 ++ '(' :: ("xyz".toList ++ ' ' ::
          (a ++ ' ' :: (b ++ ' ' :: (c ++ (w4 ++ ')' ::
            (w5 ++ ')' :: (w6 ++ ')' :: C)))))))))))) A.length := by
      rw [← hMCtri]
      exact noMatch_off_of_tri dx dy dz hAtri
    have hImp := subAll_one (offImplRepl_lt dx dy dz) A hAtri2
      (offImplRepl_eval dx dy dz path w1 w2 a b c w4 (w5 ++ ')' :: (w6 ++ ')' :: C))
        hp1 hp2 hw1 hnl hw2 hnl2 ha hb hc hw4)
      (noMatch_off_of_tri dx dy dz hZC)
    rw [show offset_model_coordinates
          (A ++ (mkModel path w1 [] w2 a b c w4 w5 w6 ++ C)) dx dy dz
        = subAll (offImplRepl dx dy dz)
            (A ++ (mkModel path w1 [] w2 a b c w4 w5 w6 ++ C)) from rfl]
    rw [hMCtri, hImp]
    simp [List.append_assoc]
  · -- position
    rw [modify_single _ _ _ _ (ModelOp.positionOp x y z) hEnum]
    dsimp only
    have hMidx2 : noMatchBelow (posIdxRepl x y z) (hdrOf path w1 ++
        ('(' :: ("offset".toList ++ modelTail w2 a b c w4 w5 w6))) (hdrOf path w1).length := by
      rw [← hMform]
      exact noMatch_posIdx_of_triIdx x y z hMidx
    have hupd : subAll (posIdxRepl x y z) (mkModel path w1 [] w2 a b c w4 w5 w6)
        = hdrOf path w1 ++ ((("(offset".toList ++ w2 ++ "(xyz".toList ++ [' ']) ++
            (fmtNum x ++ ' ' :: (fmtNum y ++ ' ' ::
              (fmtNum z ++ (w4 ++ ')' :: (w5 ++ [')'])))))) ++
            (w6 ++ [')'])) := by
      rw [hMform]
      exact subAll_one (posIdxRepl_lt x y z) (hdrOf path w1) hMidx2
        (posIdxRepl_evalM x y z w2 a b c w4 w5 w6 hw2 hnl2 ha hb hc hw4 hw5)
        (noMatch_posIdx_of_triIdx x y z hW6)
    have key : (if subAll (posIdxRepl x y z) (mkModel path w1 [] w2 a b c w4 w5 w6)
          = mkModel path w1 [] w2 a b c w4 w5 w6
        then A ++ (mkModel path w1 [] w2 a b c w4 w5 w6 ++ C)
        else (A ++ (mkModel path w1 [] w2 a b c w4 w5 w6 ++ C)).take A.length ++
          subAll (posIdxRepl x y z) (mkModel path w1 [] w2 a b c w4 w5 w6) ++
            (A ++ (mkModel path w1 [] w2 a b c w4 w5 w6 ++ C)).drop
              (A.length + (mkModel path w1 [] w2 a b c w4 w5 w6).length))
        = A ++ (subAll (posIdxRepl x y z) (mkModel path w1 [] w2 a b c w4 w5 w6) ++ C) := by
      by_cases h0 : subAll (posIdxRepl x y z) (mkModel path w1 [] w2 a b c w4 w5 w6)
          = mkModel path w1 [] w2 a b c w4 w5 w6
      · rw [if_pos h0, h0]
      · rw [if_neg h0, htake, hdrop, List.append_assoc]
    rw [key, hupd]
    have hAtri2 : noMatchBelow (posImplRepl x y z) (A ++ (hdrOf path w1 ++
        ('(' :: ("offset".toList ++ (w2 ++ '(' :: ("xyz".toList ++ ' ' ::
          (a ++ ' ' :: (b ++ ' ' :: (c ++ (w4 ++ ')' ::
            (w5 ++ ')' :: (w6 ++ ')' :: C)))))))))))) A.length := by
      rw [← hMCtri]
      exact noMatch_pos_of_tri x y z hAtri
    have hImp := subAll_one (posImplRepl_lt x y z) A hAtri2
      (posImplRepl_eval x y z path w1 w2 a b c w4 (w5 ++ ')' :: (w6 ++ ')' :: C))
        hp1 hp2 hw1 hnl hw2 hnl2 ha hb hc hw4)
      (noMatch_pos_of_tri x y z hZC)
    rw [show set_model_position
          (A ++ (mkModel path w1 [] w2 a b c w4 w5 w6 ++ C)) x y z
        = subAll (posImplRepl x y z)
            (A ++ (mkModel path w1 [] w2 a b c w4 w5 w6 ++ C)) from rfl]
    rw [hMCtri, hImp]
    simp [List.append_assoc]

/-- Witness for `c9_theorem` on a concrete one-model footprint. -/
theorem c9_witness :
    (modify_specific_model_by_index
        ("(footprint \"x\"\n\t".toList ++
          (mkModel "m.stp".toList "\n\t\t".toList [] "\n\t\t\t".toList "1.5".toList
            "-2.0".toList "0.0".toList [] "\n\t\t".toList "\n\t".toList ++ "\n)".toList))
        0 ModelOp.hideOp
      = some (add_hide_to_model ("(footprint \"x\"\n\t".toList ++
          (mkModel "m.stp".toList "\n\t\t".toList [] "\n\t\t\t".toList "1.5".toList
            "-2.0".toList "0.0".toList [] "\n\t\t".toList "\n\t".toList ++ "\n)".toList)))) ∧
    (modify_specific_model_by_index
        ("(footprint \"x\"\n\t".toList ++
          (mkModel "m.stp".toList "\n\t\t".toList [] "\n\t\t\t".toList "1.5".toList
            "-2.0".toList "0.0".toList [] "\n\t\t".toList "\n\t".toList ++ "\n)".toList))
        0 ModelOp.showOp
      = some (remove_hide_from_model ("(footprint \"x\"\n\t".toList ++
          (mkModel "m.stp".toList "\n\t\t".toList [] "\n\t\t\t".toList "1.5".toList
            "-2.0".toList "0.0".toList [] "\n\t\t".toList "\n\t".toList ++ "\n)".toList)))) ∧
    (modify_specific_model_by_index
        ("(footprint \"x\"\n\t".toList ++
          (mkModel "m.stp".toList "\n\t\t".toList [] "\n\t\t\t".toList "1.5".toList
            "-2.0".toList "0.0".toList [] "\n\t\t".toList "\n\t".toList ++ "\n)".toList))
        0 (ModelOp.offsetOp (1/2) 0 0)
      = some (offset_model_coordinates ("(footprint \"x\"\n\t".toList ++
          (mkModel "m.stp".toList "\n\t\t".toList [] "\n\t\t\t".toList "1.5".toList
            "-2.0".toList "0.0".toList [] "\n\t\t".toList "\n\t".toList ++ "\n)".toList))
          (1/2) 0 0)) ∧
    (modify_specific_model_by_index
        ("(footprint \"x\"\n\t".toList ++
          (mkModel "m.stp".toList "\n\t\t".toList [] "\n\t\t\t".toList "1.5".toList
            "-2.0".toList "0.0".toList [] "\n\t\t".toList "\n\t".toList ++ "\n)".toList))
        0 (ModelOp.positionOp 1 2 3)
      = some (set_model_position ("(footprint \"x\"\n\t".toList ++
          (mkModel "m.stp".toList "\n\t\t".toList [] "\n\t\t\t".toList "1.5".toList
            "-2.0".toList "0.0".toList [] "\n\t\t".toList "\n\t".toList ++ "\n)".toList))
          1 2 3)) :=
  c9_theorem "(footprint \"x\"\n\t".toList "\n)".toList "m.stp".toList "\n\t\t".toList
    "\n\t\t\t".toList "1.5".toList "-2.0".toList "0.0".toList [] "\n\t\t".toList "\n\t".toList
    (1/2) 0 0 1 2 3
    (by decide) (by decide) (by decide) (by decide) (by decide) (by decide) (by decide)
    (by decide) (by decide) (by decide) (by decide) (by decide) (by decide) (by decide)
    (by decide) (by decide) (by decide) (by decide) (by decide) (by decide)

/-! ## C8 -/

/-- C8: on a document whose marker scan yields three record openings — the
first two balanced spans carrying the SAME quoted Reference value and the
third carrying none — the Record Index maps the reference to the
last-scanned of the two duplicate records (map insertion overwrites), and
the reference-less record is silently not indexed: the index holds exactly
the one entry. -/
theorem c8_theorem (content ref : List Char) (p1 p2 p3 l1 l2 l3 : Nat)
    (hfind : findLitStarts "(footprint".toList content = [p1, p2, p3])
    (hs1 : scanBal (content.drop p1) 0 0 = some l1)
    (hs2 : scanBal (content.drop p2) 0 0 = some l2)
    (hs3 : scanBal (content.drop p3) 0 0 = some l3)
    (hr1 : searchFirst refPat ((content.drop p1).take l1) = some ref)
    (hr2 : searchFirst refPat ((content.drop p2).take l2) = some ref)
    (hr3 : searchFirst refPat ((content.drop p3).take l3) = none) :
    parse_kicad_pcb content = [(ref, (content.drop p2).take l2, p2, p2 + l2)] := by
  unfold parse_kicad_pcb
  rw [hfind]
  simp only [List.foldl_cons, List.foldl_nil]
  rw [hs1]
  dsimp only
  rw [hr1]
  dsimp only
  rw [hs2]
  dsimp only
  rw [hr2]
  dsimp only
  rw [hs3]
  dsimp only
  rw [hr3]
  simp [insertFp]

/-- Witness for `c8_theorem` on a three-record document with a duplicated
`U1` reference and a reference-less third record. -/
theorem c8_witness :
    parse_kicad_pcb ("(footprint \"a\" (property \"Reference\" \"U1\") (x))(footprint \"b\" (property \"Reference\" \"U1\") (y))(footprint \"c\" (z))".toList)
      = [("U1".toList,
          (("(footprint \"a\" (property \"Reference\" \"U1\") (x))(footprint \"b\" (property \"Reference\" \"U1\") (y))(footprint \"c\" (z))".toList).drop 47).take 47,
          47, 47 + 47)] :=
  c8_theorem
    "(footprint \"a\" (property \"Reference\" \"U1\") (x))(footprint \"b\" (property \"Reference\" \"U1\") (y))(footprint \"c\" (z))".toList
    "U1".toList 0 47 94 47 47 19
    (by decide) (by decide) (by decide) (by decide) (by decide) (by decide) (by decide)

/-! ## C7: deriving the model enumeration of structured records -/

/-- A hidden-marker run (or nothing) is paren-neutral for the depth scan. -/
theorem scanBal_hid {d : Int} {n : Nat} (hid rest : List Char)
    (hh : hid = [] ∨ ∃ wh, (∀ ch ∈ wh, isPySpace ch = true) ∧ hid = mkMarker wh)
    (hd : d ≠ 0) :
    scanBal (hid ++ rest) d n = scanBal rest d (n + hid.length) := by
  rcases hh with h | ⟨wh, hwh, h⟩
  · subst h
    simp
  · subst h
    rw [show mkMarker wh ++ rest = '(' :: ("hide yes".toList ++ (')' :: (wh ++ rest)))
      from by simp [mkMarker]]
    rw [scanBal_open, scanBal_seg (by decide), scanBal_close_pos (by omega),
        scanBal_seg (ws_no_paren hwh)]
    congr 1
    · omega
    · simp [mkMarker]
      omega

/-- The depth scan started at a model sub-record's opening paren stops
exactly at the record's last character, whatever follows. -/
theorem scanBal_model (path w1 hid w2 a b c w4 w5 w6 rest : List Char)
    (hpp : ∀ ch ∈ path, ch ≠ '(' ∧ ch ≠ ')')
    (hw1 : ∀ ch ∈ w1, isPySpace ch = true)
    (hw2 : ∀ ch ∈ w2, isPySpace ch = true)
    (ha : numTokAll a) (hb : numTokAll b) (hc : numTokAll c)
    (hw4 : ∀ ch ∈ w4, isPySpace ch = true)
    (hw5 : ∀ ch ∈ w5, isPySpace ch = true)
    (hw6 : ∀ ch ∈ w6, isPySpace ch = true)
    (hh : hid = [] ∨ ∃ wh, (∀ ch ∈ wh, isPySpace ch = true) ∧ hid = mkMarker wh) :
    scanBal (mkModel path w1 hid w2 a b c w4 w5 w6 ++ rest) 0 0
      = some (mkModel path w1 hid w2 a b c w4 w5 w6).length := by
  rw [show mkModel path w1 hid w2 a b c w4 w5 w6 ++ rest
      = '(' :: ("model".toList ++ (' ' :: ('"' :: (path ++ ('"' :: (w1 ++ (hid ++
        ('(' :: ("offset".toList ++ (w2 ++ ('(' :: ("xyz".toList ++ (' ' :: (a ++
        (' ' :: (b ++ (' ' :: (c ++ (w4 ++ (')' :: (w5 ++ (')' :: (w6 ++
        (')' :: rest))))))))))))))))))))))))
    from by simp [mkModel, hdrOf, modelTail, List.append_assoc]]
  rw [scanBal_open, scanBal_seg (by decide), scanBal_other (by decide),
      scanBal_other (by decide), scanBal_seg hpp, scanBal_other (by decide),
      scanBal_seg (ws_no_paren hw1), scanBal_hid hid _ hh (by omega),
      scanBal_open, scanBal_seg (by decide), scanBal_seg (ws_no_paren hw2),
      scanBal_open, scanBal_seg (by decide), scanBal_other (by decide),
      scanBal_seg (numTok_no_paren ha), scanBal_other (by decide),
      scanBal_seg (numTok_no_paren hb), scanBal_other (by decide),
      scanBal_seg (numTok_no_paren hc), scanBal_seg (ws_no_paren hw4),
      scanBal_close_pos (by norm_num), scanBal_seg (ws_no_paren hw5),
      scanBal_close_pos (by norm_num), scanBal_seg (ws_no_paren hw6),
      scanBal_close_zero (by norm_num)]
  rw [Option.some.injEq]
  simp [mkModel, hdrOf, modelTail]
  omega

/-- Enumeration of a record `A ++ M1 ++ B ++ M2 ++ C` holding exactly the
two model sub-records `M1` and `M2`. -/
theorem enum_two (A B C M1 M2 : List Char)
    (hM1 : scanBal (M1 ++ (B ++ (M2 ++ C))) 0 0 = some M1.length)
    (hM2 : scanBal (M2 ++ C) 0 0 = some M2.length)
    (hAcore : noMatchBelow matchCore (A ++ (M1 ++ (B ++ (M2 ++ C)))) A.length)
    (hBcore : noMatchBelow matchCore (B ++ (M2 ++ C)) B.length)
    (hCcore : noMatchBelow matchCore C C.length)
    (hM1core : (matchCore (M1 ++ (B ++ (M2 ++ C)))).isSome)
    (hM2core : (matchCore (M2 ++ C)).isSome) :
    enumModels (A ++ (M1 ++ (B ++ (M2 ++ C))))
      = some [(A.length, A.length + M1.length, M1),
              (A.length + M1.length + B.length,
               A.length + M1.length + (B.length + M2.length), M2)] := by
  have hC : enumModels C = some [] := enum_empty C (findModelStart_none C hCcore)
  have hdropB : (B ++ (M2 ++ C)).drop B.length = M2 ++ C := List.drop_left _ _
  have hdropBM : (B ++ (M2 ++ C)).drop (B.length + M2.length) = C := by
    rw [← List.append_assoc, ← List.length_append]
    exact List.drop_left _ _
  have hInner : enumModels (B ++ (M2 ++ C)) = some [(B.length, B.length + M2.length, M2)] := by
    have h1 := findModelStart_eval B (M2 ++ C) hBcore hM2core
    have h2 : scanBal ((B ++ (M2 ++ C)).drop B.length) 0 0 = some M2.length := by
      rw [hdropB]
      exact hM2
    have h3 : enumModels ((B ++ (M2 ++ C)).drop (B.length + M2.length)) = some [] := by
      rw [hdropBM]
      exact hC
    have h4 := enum_cons h1 h2 h3
    rw [h4, hdropB]
    simp [List.take_left]
  have hdropA : (A ++ (M1 ++ (B ++ (M2 ++ C)))).drop A.length = M1 ++ (B ++ (M2 ++ C)) :=
    List.drop_left _ _
  have hdropAM : (A ++ (M1 ++ (B ++ (M2 ++ C)))).drop (A.length + M1.length)
      = B ++ (M2 ++ C) := by
    rw [← List.append_assoc, ← List.length_append]
    exact List.drop_left _ _
  have h1 := findModelStart_eval A (M1 ++ (B ++ (M2 ++ C))) hAcore hM1core
  have h2 : scanBal ((A ++ (M1 ++ (B ++ (M2 ++ C)))).drop A.length) 0 0 = some M1.length := by
    rw [hdropA]
    exact hM1
  have h3 : enumModels ((A ++ (M1 ++ (B ++ (M2 ++ C)))).drop (A.length + M1.length))
      = some [(B.length, B.length + M2.length, M2)] := by
    rw [hdropAM]
    exact hInner
  have h4 := enum_cons h1 h2 h3
  rw [h4, hdropA]
  simp [List.take_left]

/-- Reduction of `modify_specific_model_by_index` for hide at index 1 on a
record enumerating exactly two models, the second unmarked. -/
theorem modify_two_hide (R M1 M2 : List Char) (s1 e1 s2 e2 : Nat)
    (hEnum : enumModels R = some [(s1, e1, M1), (s2, e2, M2)])
    (hnm : containsSub "(hide yes)".toList M2 = false) :
    modify_specific_model_by_index R 1 ModelOp.hideOp
      = some (R.take s2 ++ subFirst hideIdxRepl M2 ++ R.drop e2) := by
  unfold modify_specific_model_by_index
  rw [hEnum]
  have hnm2 : containsSub ['(', 'h', 'i', 'd', 'e', ' ', 'y', 'e', 's', ')'] M2 = false := by
    simpa using hnm
  simp [List.getD, hnm2]

/-- C7: on a record `A ++ M1 ++ B ++ M2 ++ C` with exactly the two model
sub-records `M1` and `M2`, the enumeration reports the two models at their
offsets; hide targeted at index 1 inserts the hidden marker into the second
model only — the result is byte-for-byte `A ++ M1 ++ B ++ M2' ++ C` with
`M2'` the marked second model, all bytes outside the second model's span
(in particular `M1`) unchanged — and re-enumeration of the result still
reports exactly two models, the first entry's text still `M1`. -/
theorem c7_theorem (A B C p1 w11 w21 a1 b1 c1 w41 w51 w61
    p2 w12 w22 a2 b2 c2 w42 w52 w62 : List Char)
    (hp11 : p1 ≠ []) (hp12 : ∀ ch ∈ p1, ch ≠ '"') (hp13 : ∀ ch ∈ p1, ch ≠ '(' ∧ ch ≠ ')')
    (hp21 : p2 ≠ []) (hp22 : ∀ ch ∈ p2, ch ≠ '"') (hp23 : ∀ ch ∈ p2, ch ≠ '(' ∧ ch ≠ ')')
    (hw11 : ∀ ch ∈ w11, isPySpace ch = true)
    (hw12 : ∀ ch ∈ w12, isPySpace ch = true) (hnl12 : '\n' ∈ w12)
    (hw21 : ∀ ch ∈ w21, isPySpace ch = true) (hw41 : ∀ ch ∈ w41, isPySpace ch = true)
    (hw51 : ∀ ch ∈ w51, isPySpace ch = true) (hw61 : ∀ ch ∈ w61, isPySpace ch = true)
    (hw22 : ∀ ch ∈ w22, isPySpace ch = true) (hw42 : ∀ ch ∈ w42, isPySpace ch = true)
    (hw52 : ∀ ch ∈ w52, isPySpace ch = true) (hw62 : ∀ ch ∈ w62, isPySpace ch = true)
    (ha1 : numTokAll a1) (hb1 : numTokAll b1) (hc1 : numTokAll c1)
    (ha2 : numTokAll a2) (hb2 : numTokAll b2) (hc2 : numTokAll c2)
    (hAcore : noMatchBelow matchCore
      (A ++ (mkModel p1 w11 [] w21 a1 b1 c1 w41 w51 w61 ++
        (B ++ (mkModel p2 w12 [] w22 a2 b2 c2 w42 w52 w62 ++ C)))) A.length)
    (hBcore : noMatchBelow matchCore
      (B ++ (mkModel p2 w12 [] w22 a2 b2 c2 w42 w52 w62 ++ C)) B.length)
    (hCcore : noMatchBelow matchCore C C.length)
    (hAcore2 : noMatchBelow matchCore
      (A ++ (mkModel p1 w11 [] w21 a1 b1 c1 w41 w51 w61 ++
        (B ++ (mkModel p2 w12 hideMarkIns w22 a2 b2 c2 w42 w52 w62 ++ C)))) A.length)
    (hBcore2 : noMatchBelow matchCore
      (B ++ (mkModel p2 w12 hideMarkIns w22 a2 b2 c2 w42 w52 w62 ++ C)) B.length)
    (hNoMark : containsSub "(hide yes)".toList
      (mkModel p2 w12 [] w22 a2 b2 c2 w42 w52 w62) = false) :
    (enumModels (A ++ (mkModel p1 w11 [] w21 a1 b1 c1 w41 w51 w61 ++
        (B ++ (mkModel p2 w12 [] w22 a2 b2 c2 w42 w52 w62 ++ C))))
      = some [(A.length, A.length + (mkModel p1 w11 [] w21 a1 b1 c1 w41 w51 w61).length,
               mkModel p1 w11 [] w21 a1 b1 c1 w41 w51 w61),
              (A.length + (mkModel p1 w11 [] w21 a1 b1 c1 w41 w51 w61).length + B.length,
               A.length + (mkModel p1 w11 [] w21 a1 b1 c1 w41 w51 w61).length +
                 (B.length + (mkModel p2 w12 [] w22 a2 b2 c2 w42 w52 w62).length),
               mkModel p2 w12 [] w22 a2 b2 c2 w42 w52 w62)]) ∧
    (modify_specific_model_by_index
        (A ++ (mkModel p1 w11 [] w21 a1 b1 c1 w41 w51 w61 ++
          (B ++ (mkModel p2 w12 [] w22 a2 b2 c2 w42 w52 w62 ++ C)))) 1 ModelOp.hideOp
      = some (A ++ (mkModel p1 w11 [] w21 a1 b1 c1 w41 w51 w61 ++
          (B ++ (mkModel p2 w12 hideMarkIns w22 a2 b2 c2 w42 w52 w62 ++ C))))) ∧
    (enumModels (A ++ (mkModel p1 w11 [] w21 a1 b1 c1 w41 w51 w61 ++
        (B ++ (mkModel p2 w12 hideMarkIns w22 a2 b2 c2 w42 w52 w62 ++ C))))
      = some [(A.length, A.length + (mkModel p1 w11 [] w21 a1 b1 c1 w41 w51 w61).length,
               mkModel p1 w11 [] w21 a1 b1 c1 w41 w51 w61),
              (A.length + (mkModel p1 w11 [] w21 a1 b1 c1 w41 w51 w61).length + B.length,
               A.length + (mkModel p1 w11 [] w21 a1 b1 c1 w41 w51 w61).length +
                 (B.length + (mkModel p2 w12 hideMarkIns w22 a2 b2 c2 w42 w52 w62).length),
               mkModel p2 w12 hideMarkIns w22 a2 b2 c2 w42 w52 w62)]) := by
  have hhM2 : hideMarkIns = [] ∨
      ∃ wh, (∀ ch ∈ wh, isPySpace ch = true) ∧ hideMarkIns = mkMarker wh :=
    Or.inr ⟨"\n\t\t\t".toList, by decide, by decide⟩
  have hM1core : (matchCore (mkModel p1 w11 [] w21 a1 b1 c1 w41 w51 w61 ++
      (B ++ (mkModel p2 w12 [] w22 a2 b2 c2 w42 w52 w62 ++ C)))).isSome := by
    rw [show mkModel p1 w11 [] w21 a1 b1 c1 w41 w51 w61 ++
        (B ++ (mkModel p2 w12 [] w22 a2 b2 c2 w42 w52 w62 ++ C))
      = hdrOf p1 w11 ++ ("(offset".toList ++ (modelTail w21 a1 b1 c1 w41 w51 w61 ++
          (B ++ (mkModel p2 w12 [] w22 a2 b2 c2 w42 w52 w62 ++ C))))
      from by simp [mkModel, List.append_assoc]]
    rw [matchCore_eval p1 w11 _ hp11 hp12]
    rfl
  have hM1core2 : (matchCore (mkModel p1 w11 [] w21 a1 b1 c1 w41 w51 w61 ++
      (B ++ (mkModel p2 w12 hideMarkIns w22 a2 b2 c2 w42 w52 w62 ++ C)))).isSome := by
    rw [show mkModel p1 w11 [] w21 a1 b1 c1 w41 w51 w61 ++
        (B ++ (mkModel p2 w12 hideMarkIns w22 a2 b2 c2 w42 w52 w62 ++ C))
      = hdrOf p1 w11 ++ ("(offset".toList ++ (modelTail w21 a1 b1 c1 w41 w51 w61 ++
          (B ++ (mkModel p2 w12 hideMarkIns w22 a2 b2 c2 w42 w52 w62 ++ C))))
      from by simp [mkModel, List.append_assoc]]
    rw [matchCore_eval p1 w11 _ hp11 hp12]
    rfl
  have hM2core : (matchCore (mkModel p2 w12 [] w22 a2 b2 c2 w42 w52 w62 ++ C)).isSome := by
    rw [show mkModel p2 w12 [] w22 a2 b2 c2 w42 w52 w62 ++ C
      = hdrOf p2 w12 ++ ("(offset".toList ++ (modelTail w22 a2 b2 c2 w42 w52 w62 ++ C))
      from by simp [mkModel, List.append_assoc]]
    rw [matchCore_eval p2 w12 _ hp21 hp22]
    rfl
  have hM2core2 : (matchCore (mkModel p2 w12 hideMarkIns w22 a2 b2 c2 w42 w52 w62 ++ C)).isSome := by
    rw [show mkModel p2 w12 hideMarkIns w22 a2 b2 c2 w42 w52 w62 ++ C
      = hdrOf p2 w12 ++ (hideMarkIns ++ ("(offset".toList ++
          (modelTail w22 a2 b2 c2 w42 w52 w62 ++ C)))
      from by simp [mkModel, List.append_assoc]]
    rw [matchCore_eval p2 w12 _ hp21 hp22]
    rfl
  have hscanM1 := scanBal_model p1 w11 [] w21 a1 b1 c1 w41 w51 w61
    (B ++ (mkModel p2 w12 [] w22 a2 b2 c2 w42 w52 w62 ++ C))
    hp13 hw11 hw21 ha1 hb1 hc1 hw41 hw51 hw61 (Or.inl rfl)
  have hscanM1b := scanBal_model p1 w11 [] w21 a1 b1 c1 w41 w51 w61
    (B ++ (mkModel p2 w12 hideMarkIns w22 a2 b2 c2 w42 w52 w62 ++ C))
    hp13 hw11 hw21 ha1 hb1 hc1 hw41 hw51 hw61 (Or.inl rfl)
  have hscanM2 := scanBal_model p2 w12 [] w22 a2 b2 c2 w42 w52 w62 C
    hp23 hw12 hw22 ha2 hb2 hc2 hw42 hw52 hw62 (Or.inl rfl)
  have hscanM2b := scanBal_model p2 w12 hideMarkIns w22 a2 b2 c2 w42 w52 w62 C
    hp23 hw12 hw22 ha2 hb2 hc2 hw42 hw52 hw62 hhM2
  have henum1 := enum_two A B C (mkModel p1 w11 [] w21 a1 b1 c1 w41 w51 w61)
    (mkModel p2 w12 [] w22 a2 b2 c2 w42 w52 w62)
    hscanM1 hscanM2 hAcore hBcore hCcore hM1core hM2core
  have henum2 := enum_two A B C (mkModel p1 w11 [] w21 a1 b1 c1 w41 w51 w61)
    (mkModel p2 w12 hideMarkIns w22 a2 b2 c2 w42 w52 w62)
    hscanM1b hscanM2b hAcore2 hBcore2 hCcore hM1core2 hM2core2
  refine ⟨henum1, ?_, henum2⟩
  rw [modify_two_hide _ _ _ _ _ _ _ henum1 hNoMark]
  have htake2 : (A ++ (mkModel p1 w11 [] w21 a1 b1 c1 w41 w51 w61 ++
      (B ++ (mkModel p2 w12 [] w22 a2 b2 c2 w42 w52 w62 ++ C)))).take
        (A.length + (mkModel p1 w11 [] w21 a1 b1 c1 w41 w51 w61).length + B.length)
      = (A ++ mkModel p1 w11 [] w21 a1 b1 c1 w41 w51 w61) ++ B := by
    rw [show A ++ (mkModel p1 w11 [] w21 a1 b1 c1 w41 w51 w61 ++
        (B ++ (mkModel p2 w12 [] w22 a2 b2 c2 w42 w52 w62 ++ C)))
      = ((A ++ mkModel p1 w11 [] w21 a1 b1 c1 w41 w51 w61) ++ B) ++
          (mkModel p2 w12 [] w22 a2 b2 c2 w42 w52 w62 ++ C)
      from by simp [List.append_assoc]]
    exact List.take_left' (by simp only [List.length_append])
  have hdrop2 : (A ++ (mkModel p1 w11 [] w21 a1 b1 c1 w41 w51 w61 ++
      (B ++ (mkModel p2 w12 [] w22 a2 b2 c2 w42 w52 w62 ++ C)))).drop
        (A.length + (mkModel p1 w11 [] w21 a1 b1 c1 w41 w51 w61).length +
          (B.length + (mkModel p2 w12 [] w22 a2 b2 c2 w42 w52 w62).length))
      = C := by
    rw [show A ++ (mkModel p1 w11 [] w21 a1 b1 c1 w41 w51 w61 ++
        (B ++ (mkModel p2 w12 [] w22 a2 b2 c2 w42 w52 w62 ++ C)))
      = (((A ++ mkModel p1 w11 [] w21 a1 b1 c1 w41 w51 w61) ++ B) ++
          mkModel p2 w12 [] w22 a2 b2 c2 w42 w52 w62) ++ C
      from by simp [List.append_assoc]]
    exact List.drop_left' (by simp only [List.length_append]; omega)
  have hsubF : subFirst hideIdxRepl (mkModel p2 w12 [] w22 a2 b2 c2 w42 w52 w62)
      = (hdrOf p2 w12 ++ hideMarkIns) ++
          ('(' :: ("offset".toList ++ modelTail w22 a2 b2 c2 w42 w52 w62)) := by
    rw [show mkModel p2 w12 [] w22 a2 b2 c2 w42 w52 w62
      = hdrOf p2 w12 ++ ('(' :: ("offset".toList ++ modelTail w22 a2 b2 c2 w42 w52 w62))
      from by simp [mkModel]]
    refine subFirst_match_head2 (by simp [hdrOf]) ?_
    unfold hideIdxRepl
    rw [matchHdrW_eval p2 w12 '(' ("offset".toList ++ modelTail w22 a2 b2 c2 w42 w52 w62)
          hp21 hp22 hw12 hnl12 ps_lp]
    rfl
  rw [htake2, hdrop2, hsubF]
  simp [mkModel, List.append_assoc]

/-- Witness for `c7_theorem` on a concrete two-model footprint. -/
theorem c7_witness :
    (enumModels ("(footprint \"x\"\n\t".toList ++
        (mkModel "a.stp".toList "\n\t\t".toList [] "\n\t\t\t".toList "1.5".toList
          "-2.0".toList "0.0".toList [] "\n\t\t".toList "\n\t".toList ++
          ("\n\t".toList ++ (mkModel "b.stp".toList "\n\t\t".toList [] "\n\t\t\t".toList
            "0".toList "0".toList "0".toList [] "\n\t\t".toList "\n\t".toList ++
            "\n)".toList))))
      = some [("(footprint \"x\"\n\t".toList.length,
               "(footprint \"x\"\n\t".toList.length +
                 (mkModel "a.stp".toList "\n\t\t".toList [] "\n\t\t\t".toList "1.5".toList
                   "-2.0".toList "0.0".toList [] "\n\t\t".toList "\n\t".toList).length,
               mkModel "a.stp".toList "\n\t\t".toList [] "\n\t\t\t".toList "1.5".toList
                 "-2.0".toList "0.0".toList [] "\n\t\t".toList "\n\t".toList),
              ("(footprint \"x\"\n\t".toList.length +
                 (mkModel "a.stp".toList "\n\t\t".toList [] "\n\t\t\t".toList "1.5".toList
                   "-2.0".toList "0.0".toList [] "\n\t\t".toList "\n\t".toList).length +
                 "\n\t".toList.length,
               "(footprint \"x\"\n\t".toList.length +
                 (mkModel "a.stp".toList "\n\t\t".toList [] "\n\t\t\t".toList "1.5".toList
                   "-2.0".toList "0.0".toList [] "\n\t\t".toList "\n\t".toList).length +
                 ("\n\t".toList.length +
                  (mkModel "b.stp".toList "\n\t\t".toList [] "\n\t\t\t".toList
                    "0".toList "0".toList "0".toList [] "\n\t\t".toList "\n\t".toList).length),
               mkModel "b.stp".toList "\n\t\t".toList [] "\n\t\t\t".toList
                 "0".toList "0".toList "0".toList [] "\n\t\t".toList "\n\t".toList)]) ∧
    (modify_specific_model_by_index ("(footprint \"x\"\n\t".toList ++
        (mkModel "a.stp".toList "\n\t\t".toList [] "\n\t\t\t".toList "1.5".toList
          "-2.0".toList "0.0".toList [] "\n\t\t".toList "\n\t".toList ++
          ("\n\t".toList ++ (mkModel "b.stp".toList "\n\t\t".toList [] "\n\t\t\t".toList
            "0".toList "0".toList "0".toList [] "\n\t\t".toList "\n\t".toList ++
            "\n)".toList)))) 1 ModelOp.hideOp
      = some ("(footprint \"x\"\n\t".toList ++
        (mkModel "a.stp".toList "\n\t\t".toList [] "\n\t\t\t".toList "1.5".toList
          "-2.0".toList "0.0".toList [] "\n\t\t".toList "\n\t".toList ++
          ("\n\t".toList ++
            (mkModel "b.stp".toList "\n\t\t".toList hideMarkIns "\n\t\t\t".toList
              "0".toList "0".toList "0".toList [] "\n\t\t".toList "\n\t".toList ++
            "\n)".toList))))) ∧
    (enumModels ("(footprint \"x\"\n\t".toList ++
        (mkModel "a.stp".toList "\n\t\t".toList [] "\n\t\t\t".toList "1.5".toList
          "-2.0".toList "0.0".toList [] "\n\t\t".toList "\n\t".toList ++
          ("\n\t".toList ++
            (mkModel "b.stp".toList "\n\t\t".toList hideMarkIns "\n\t\t\t".toList
              "0".toList "0".toList "0".toList [] "\n\t\t".toList "\n\t".toList ++
            "\n)".toList))))
      = some [("(footprint \"x\"\n\t".toList.length,
               "(footprint \"x\"\n\t".toList.length +
                 (mkModel "a.stp".toList "\n\t\t".toList [] "\n\t\t\t".toList "1.5".toList
                   "-2.0".toList "0.0".toList [] "\n\t\t".toList "\n\t".toList).length,
               mkModel "a.stp".toList "\n\t\t".toList [] "\n\t\t\t".toList "1.5".toList
                 "-2.0".toList "0.0".toList [] "\n\t\t".toList "\n\t".toList),
              ("(footprint \"x\"\n\t".toList.length +
                 (mkModel "a.stp".toList "\n\t\t".toList [] "\n\t\t\t".toList "1.5".toList
                   "-2.0".toList "0.0".toList [] "\n\t\t".toList "\n\t".toList).length +
                 "\n\t".toList.length,
               "(footprint \"x\"\n\t".toList.length +
                 (mkModel "a.stp".toList "\n\t\t".toList [] "\n\t\t\t".toList "1.5".toList
                   "-2.0".toList "0.0".toList [] "\n\t\t".toList "\n\t".toList).length +
                 ("\n\t".toList.length +
                  (mkModel "b.stp".toList "\n\t\t".toList hideMarkIns "\n\t\t\t".toList
                    "0".toList "0".toList "0".toList [] "\n\t\t".toList "\n\t".toList).length),
               mkModel "b.stp".toList "\n\t\t".toList hideMarkIns "\n\t\t\t".toList
                 "0".toList "0".toList "0".toList [] "\n\t\t".toList "\n\t".toList)]) :=
  c7_theorem "(footprint \"x\"\n\t".toList "\n\t".toList "\n)".toList
    "a.stp".toList "\n\t\t".toList "\n\t\t\t".toList "1.5".toList "-2.0".toList "0.0".toList
    [] "\n\t\t".toList "\n\t".toList
    "b.stp".toList "\n\t\t".toList "\n\t\t\t".toList "0".toList "0".toList "0".toList
    [] "\n\t\t".toList "\n\t".toList
    (by decide) (by decide) (by decide) (by decide) (by decide) (by decide) (by decide)
    (by decide) (by decide) (by decide) (by decide) (by decide) (by decide) (by decide)
    (by decide) (by decide) (by decide) (by decide) (by decide) (by decide) (by decide)
    (by decide) (by decide) (by decide) (by decide) (by decide) (by decide) (by decide)
    (by decide)

end KicadFp
